import Mathlib

/-!
# vL3 endpoint: peer registry and peer connection state machine

A shallow embedding of `internal/vl3/endpoint.go`.

* Go maps are association lists with first-match lookup; a pointer to a peer
  record stored in the map is the record under its key, and a mutation through
  the pointer is written back under that key.
* A Go `error` is an `Option String` (`none` is `nil`); a `*connection.Connection`
  that may be nil is an `Option Connection`.
* The external collaborators (remote connect, dataplane apply, discovery, the
  self-name resolver, the next chain stage) are functions of the history of
  events so far and of their arguments, so their outcomes are arbitrary.
* Every lock operation and every collaborator call is appended to a trace.
-/

namespace VL3

/-! ## Data model -/

/-- The reserved label key of the peer path. -/
def LabelNseSource : String := "vl3Nse/nseSource/endpointName"

/-- The constant `memif.MECHANISM`. -/
def memifMECHANISM : String := "MEMIF"

/-- The type `vL3PeerState`. -/
inductive vL3PeerState where
  | PeerStateNotConn
  | PeerStateConn
  | PeerStateConnErr
  | PeerStateConnInProg
  | PeerStateConnRx
  deriving DecidableEq, Repr

open vL3PeerState

/-- The type `connectioncontext.Route`. -/
structure Route where
  Prefix : String
  deriving DecidableEq, Repr

/-- The fields of `connectioncontext.IPContext` the endpoint touches. -/
structure IpContext where
  SrcIpAddr : String
  ExcludedPrefixes : List String
  DstRoutes : List Route
  deriving DecidableEq, Repr

/-- The type `connectioncontext.ConnectionContext`. -/
structure ConnectionContext where
  IpContext : IpContext
  deriving DecidableEq, Repr

/-- The fields of `connection.Connection` the endpoint touches. -/
structure Connection where
  NetworkService : String
  NetworkServiceEndpointName : String
  SourceNetworkServiceManagerName : String
  Labels : List (String × String)
  Context : ConnectionContext
  deriving DecidableEq, Repr

/-- The type `networkservice.NetworkServiceRequest`. -/
structure NetworkServiceRequest where
  Connection : Connection
  deriving DecidableEq, Repr

/-- The type `registry.NetworkServiceEndpoint`. -/
structure NetworkServiceEndpoint where
  Name : String
  NetworkServiceName : String
  NetworkServiceManagerName : String
  deriving DecidableEq, Repr

/-- The type `registry.FindNetworkServiceResponse`. -/
structure FindNetworkServiceResponse where
  NetworkServiceEndpoints : List NetworkServiceEndpoint
  deriving DecidableEq, Repr

/-- The nil-safe getter `GetNetworkServiceEndpoints`. -/
def GetNetworkServiceEndpoints : Option FindNetworkServiceResponse → List NetworkServiceEndpoint
  | none => []
  | some r => r.NetworkServiceEndpoints

/-- The type `vL3NsePeer` (its lock is in the trace, not in the record). -/
structure vL3NsePeer where
  endpointName : String
  networkServiceManagerName : String
  state : vL3PeerState
  connHdl : Option Connection
  connErr : Option String
  excludedPrefixes : List String
  remoteIp : String
  deriving DecidableEq, Repr

/-- The arguments of `nsmClient.ConnectToEndpoint`. -/
structure ConnectArgs where
  remoteIp : String
  endpointName : String
  networkServiceManagerName : String
  ifName : String
  mechanism : String
  description : String
  routes : List String
  deriving DecidableEq, Repr

/-- The type `vppagent.ProcessDataPlaneReq`; `Vppconfig` is the empty
`vpp.ConfigData` placeholder and carries no data. -/
structure ProcessDataPlaneReq where
  ServiceName : String
  Ifname : String
  Connection : Option Connection
  deriving DecidableEq, Repr

/-- What the endpoint does that is visible from outside a record. -/
inductive Event where
  | lockRegistry
  | unlockRegistry
  | lockPeer (name : String)
  | unlockPeer (name : String)
  | connectToEndpoint (args : ConnectArgs)
  | processClientDP (req : ProcessDataPlaneReq)
  | findNetworkService (networkServiceName : String)
  | goProcessNsEndpoints (response : Option FindNetworkServiceResponse) (remoteIp : String)
  | nextRequest (request : NetworkServiceRequest)
  deriving DecidableEq, Repr

/-- The type `vL3ConnectComposite`; of `nsConfig` and `nsmClient` the fields
read or written by the endpoint. -/
structure vL3ConnectComposite where
  myEndpointName : String
  nsConfigIPAddress : String
  remoteNsIpList : List String
  ipamCidr : String
  vl3NsePeers : List (String × vL3NsePeer)
  nsDiscoveryClientIsNil : Bool
  outgoingNscLabels : List (String × String)
  outgoingNscName : String
  deriving DecidableEq, Repr

/-- The external collaborators. Each sees the trace so far. -/
structure Collaborators where
  myNseNameFunc : List Event → String
  connectToEndpoint : List Event → ConnectArgs → Option Connection × Option String
  processClientDP : List Event → ProcessDataPlaneReq → Option String
  findNetworkService : List Event → String → Option FindNetworkServiceResponse × Option String
  next : Option (List Event → NetworkServiceRequest → Option Connection × Option String)

/-- The endpoint together with the trace of what it has done. -/
structure World where
  vxc : vL3ConnectComposite
  trace : List Event
  deriving DecidableEq, Repr

/-! ## Go maps -/

/-- Map read `m[k]` with the `ok` flag. -/
def mapGet {β : Type} (m : List (String × β)) (k : String) : Option β :=
  match m with
  | [] => none
  | (k', v) :: rest => if k' = k then some v else mapGet rest k

/-- Map write `m[k] = v`. -/
def mapSet {β : Type} (m : List (String × β)) (k : String) (v : β) : List (String × β) :=
  match m with
  | [] => [(k, v)]
  | (k', v') :: rest => if k' = k then (k, v) :: rest else (k', v') :: mapSet rest k v

/-- The keys of a map. -/
def mapKeys {β : Type} (m : List (String × β)) : List String := m.map Prod.fst

/-! ## removeDuplicates -/

/-- The loop of `removeDuplicates`: `encountered` is the `map[string]bool`
(absent keys read as `false`), `result` the slice built so far. -/
def removeDuplicatesLoop : List String → (String → Bool) → List String → List String
  | [], _, result => result
  | v :: rest, encountered, result =>
    if !encountered v then
      removeDuplicatesLoop rest (fun s => if s = v then true else encountered s) (result ++ [v])
    else
      removeDuplicatesLoop rest encountered result

/-- The function `removeDuplicates`. -/
def removeDuplicates (elements : List String) : List String :=
  removeDuplicatesLoop elements (fun _ => false) []

/-! ## Registry operations -/

/-- Append one event to the trace. -/
def World.emit (w : World) (e : Event) : World :=
  { w with trace := w.trace ++ [e] }

/-- Store a peer record under a key: the effect, on the map, of mutating the
record through the pointer the map holds under that key. -/
def World.storePeer (w : World) (name : String) (peer : vL3NsePeer) : World :=
  { w with vxc := { w.vxc with vl3NsePeers := mapSet w.vxc.vl3NsePeers name peer } }

/-- The method `addPeer`: returns the record under `endpointName`, created
first when the key is absent. -/
def addPeer (w : World) (endpointName networkServiceManagerName remoteIp : String) :
    vL3NsePeer × World :=
  let w1 := w.emit Event.lockRegistry
  match mapGet w1.vxc.vl3NsePeers endpointName with
  | some peer => (peer, w1.emit Event.unlockRegistry)
  | none =>
    let peer : vL3NsePeer :=
      { endpointName := endpointName
        networkServiceManagerName := networkServiceManagerName
        state := PeerStateNotConn
        connHdl := none
        connErr := none
        excludedPrefixes := []
        remoteIp := remoteIp }
    (peer, (w1.storePeer endpointName peer).emit Event.unlockRegistry)

/-- The method `SetMyNseName`. -/
def SetMyNseName (env : Collaborators) (w : World) (request : NetworkServiceRequest) : World :=
  let w1 := w.emit Event.lockRegistry
  let w2 :=
    if w1.vxc.myEndpointName = "" then
      let nseName := env.myNseNameFunc w1.trace
      if request.Connection.NetworkServiceEndpointName ≠ "" then
        { w1 with vxc := { w1.vxc with
            myEndpointName := request.Connection.NetworkServiceEndpointName } }
      else
        { w1 with vxc := { w1.vxc with myEndpointName := nseName } }
    else w1
  w2.emit Event.unlockRegistry

/-- The method `GetMyNseName`. -/
def GetMyNseName (w : World) : String × World :=
  (w.vxc.myEndpointName, (w.emit Event.lockRegistry).emit Event.unlockRegistry)

/-- The method `processPeerRequest`, at its one call site, where `incoming` is
the same pointer as `request.Connection`: the mutations of `incoming` are
mutations of the request's connection, and `peer.connHdl` points to it.
Returns the error, the request as mutated, and the world. -/
def processPeerRequest (_env : Collaborators) (w : World) (vl3SrcEndpointName : String)
    (request : NetworkServiceRequest) : Option String × NetworkServiceRequest × World :=
  let r := addPeer w vl3SrcEndpointName request.Connection.SourceNetworkServiceManagerName ""
  let peer := r.1
  let w1 := r.2.emit (Event.lockPeer vl3SrcEndpointName)
  let incoming := request.Connection
  let excluded :=
    removeDuplicates (peer.excludedPrefixes ++ incoming.Context.IpContext.ExcludedPrefixes)
  let mySubnetRoute : Route := { Prefix := w1.vxc.ipamCidr }
  let incoming1 : Connection :=
    { incoming with Context := { IpContext := { incoming.Context.IpContext with
        ExcludedPrefixes := excluded
        DstRoutes := incoming.Context.IpContext.DstRoutes ++ [mySubnetRoute] } } }
  let peer1 : vL3NsePeer :=
    { peer with
      excludedPrefixes := excluded
      connHdl := some incoming1
      state := PeerStateConnRx }
  let w2 := (w1.storePeer vl3SrcEndpointName peer1).emit (Event.unlockPeer vl3SrcEndpointName)
  (none, { request with Connection := incoming1 }, w2)

/-- The statement `vxc.nsmClient.OutgoingNscLabels[LabelNseSource] = vxc.GetMyNseName()`
of `performPeerConnectRequest`. -/
def setOutgoingNscLabel (w : World) : World :=
  let me := GetMyNseName w
  { me.2 with vxc := { me.2.vxc with
      outgoingNscLabels := mapSet me.2.vxc.outgoingNscLabels LabelNseSource me.1 } }

/-- The arguments `performPeerConnectRequest` passes to `ConnectToEndpoint`. -/
def connectArgsOf (peer : vL3NsePeer) (routes : List String) : ConnectArgs :=
  let ifName := peer.endpointName
  { remoteIp := peer.remoteIp
    endpointName := peer.endpointName
    networkServiceManagerName := peer.networkServiceManagerName
    ifName := ifName
    mechanism := memifMECHANISM
    description := "VPP interface " ++ ifName
    routes := routes }

/-- The method `performPeerConnectRequest`. -/
def performPeerConnectRequest (env : Collaborators) (w : World) (peer : vL3NsePeer)
    (routes : List String) : (Option Connection × Option String) × World :=
  let w1 := setOutgoingNscLabel w
  let args := connectArgsOf peer routes
  let res := env.connectToEndpoint w1.trace args
  let w2 := w1.emit (Event.connectToEndpoint args)
  if res.2 ≠ none then ((none, res.2), w2) else ((res.1, none), w2)

/-- The method `createPeerConnectionRequest`. Returns the error, the record as
mutated, and the world. -/
def createPeerConnectionRequest (env : Collaborators) (w : World) (peer : vL3NsePeer)
    (routes : List String) : Option String × vL3NsePeer × World :=
  if peer.state = PeerStateConn ∨ peer.state = PeerStateConnInProg then
    (peer.connErr, peer, w)
  else
    let peer1 : vL3NsePeer := { peer with state := PeerStateConnInProg }
    let r := performPeerConnectRequest env w peer1 routes
    let peer2 : vL3NsePeer := { peer1 with connHdl := r.1.1, connErr := r.1.2 }
    if peer2.connErr ≠ none then
      (peer2.connErr, { peer2 with state := PeerStateConnErr }, r.2)
    else
      let req : ProcessDataPlaneReq :=
        { ServiceName := "", Ifname := peer2.endpointName, Connection := peer2.connHdl }
      let peer3 : vL3NsePeer := { peer2 with connErr := env.processClientDP r.2.trace req }
      let w2 := r.2.emit (Event.processClientDP req)
      if peer3.connErr ≠ none then
        (peer3.connErr, { peer3 with state := PeerStateConnErr }, w2)
      else
        (none, { peer3 with state := PeerStateConn }, w2)

/-- The method `ConnectPeerEndpoint`, the `drive()` of the state machine. -/
def ConnectPeerEndpoint (env : Collaborators) (w : World) (peer : vL3NsePeer) :
    Option String × vL3NsePeer × World :=
  match peer.state with
  | PeerStateNotConn => createPeerConnectionRequest env w peer [w.vxc.ipamCidr]
  | PeerStateConn => (none, peer, w)
  | PeerStateConnErr => (none, peer, w)
  | PeerStateConnInProg => (none, peer, w)
  | PeerStateConnRx => (none, peer, w)

/-- The sequence `peer.Lock(); ConnectPeerEndpoint(peer); peer.Unlock()` on the
record `peer` that the map holds under `name`. -/
def driveLocked (env : Collaborators) (w : World) (name : String) (peer : vL3NsePeer) : World :=
  let d := ConnectPeerEndpoint env (w.emit (Event.lockPeer name)) peer
  (d.2.2.storePeer name d.2.1).emit (Event.unlockPeer name)

/-- The loop body of `processNsEndpoints`, for one discovered endpoint. -/
def processNsEndpoint (env : Collaborators) (remoteIp : String)
    (vl3endpoint : NetworkServiceEndpoint) (w : World) : World :=
  let me := GetMyNseName w
  if vl3endpoint.Name ≠ me.1 then
    let r := addPeer me.2 vl3endpoint.Name vl3endpoint.NetworkServiceManagerName remoteIp
    driveLocked env r.2 vl3endpoint.Name r.1
  else
    me.2

/-- The loop of `processNsEndpoints` over the discovered endpoints. -/
def processNsEndpointsLoop (env : Collaborators) (remoteIp : String) :
    List NetworkServiceEndpoint → World → World
  | [], w => w
  | vl3endpoint :: rest, w =>
    processNsEndpointsLoop env remoteIp rest (processNsEndpoint env remoteIp vl3endpoint w)

/-- The method `processNsEndpoints`, the mesh formation driver. -/
def processNsEndpoints (env : Collaborators) (w : World)
    (response : Option FindNetworkServiceResponse) (remoteIp : String) : Option String × World :=
  (none, processNsEndpointsLoop env remoteIp (GetNetworkServiceEndpoints response) w)

/-- One discovery query of `Request`: the query is issued, and on success a
`processNsEndpoints` task is started with the response and the site tag. -/
def discover (env : Collaborators) (w : World) (networkServiceName remoteIp : String) : World :=
  let res := env.findNetworkService w.trace networkServiceName
  let w1 := w.emit (Event.findNetworkService networkServiceName)
  if res.2 ≠ none then w1 else w1.emit (Event.goProcessNsEndpoints res.1 remoteIp)

/-- The loop of `Request` over `remoteNsIpList`; `reqName` is
`req.NetworkServiceName`, the field of the one query object the loop reuses. -/
def discoverRemotes (env : Collaborators) : List String → String → World → World
  | [], _, w => w
  | remoteIp :: rest, reqName, w =>
    let reqName1 := reqName ++ "@" ++ remoteIp
    discoverRemotes env rest reqName1 (discover env w reqName1 remoteIp)

/-- The client path of `Request`, its `else` branch: the route to this
endpoint is appended, Self Identity is resolved, and when there is a discovery
client the local registry and then each remote site are queried. Returns the
request as mutated and the world. -/
def clientRequest (env : Collaborators) (w : World) (request : NetworkServiceRequest) :
    NetworkServiceRequest × World :=
  let nscVL3Route : Route := { Prefix := w.vxc.nsConfigIPAddress }
  let request1 : NetworkServiceRequest :=
    { request with Connection := { request.Connection with
        Context := { IpContext := { request.Connection.Context.IpContext with
          DstRoutes := request.Connection.Context.IpContext.DstRoutes ++ [nscVL3Route] } } } }
  let w1 := SetMyNseName env w request1
  if w1.vxc.nsDiscoveryClientIsNil then (request1, w1)
  else
    let reqName := request1.Connection.NetworkService
    let w2 := discover env w1 reqName ""
    let w3 : World := { w2 with vxc := { w2.vxc with outgoingNscName := reqName } }
    (request1, discoverRemotes env w3.vxc.remoteNsIpList reqName w3)

/-- The method `Request`. Returns the connection and error handed back, the
request as mutated, and the world. -/
def Request (env : Collaborators) (w : World) (request : NetworkServiceRequest) :
    (Option Connection × Option String) × NetworkServiceRequest × World :=
  let r : NetworkServiceRequest × World :=
    match mapGet request.Connection.Labels LabelNseSource with
    | some vl3SrcEndpointName => (processPeerRequest env w vl3SrcEndpointName request).2
    | none => clientRequest env w request
  match env.next with
  | some nextStage => (nextStage r.2.trace r.1, r.1, r.2.emit (Event.nextRequest r.1))
  | none => ((some r.1.Connection, none), r.1, r.2)

/-! ## Sequences of operations -/

/-- The `drive()` of the record stored under a key, called with that record's
lock held; nothing happens when the key is absent. -/
def drivePeer (env : Collaborators) (w : World) (name : String) : World :=
  match mapGet w.vxc.vl3NsePeers name with
  | none => w
  | some peer => driveLocked env w name peer

/-- One operation on the endpoint. -/
inductive Op where
  | addPeer (endpointName networkServiceManagerName remoteIp : String)
  | SetMyNseName (request : NetworkServiceRequest)
  | GetMyNseName
  | processPeerRequest (vl3SrcEndpointName : String) (request : NetworkServiceRequest)
  | drive (name : String)
  | processNsEndpoints (response : Option FindNetworkServiceResponse) (remoteIp : String)
  | Request (request : NetworkServiceRequest)
  deriving DecidableEq, Repr

/-- Run one operation. -/
def step (env : Collaborators) (w : World) : Op → World
  | Op.addPeer n m s => (addPeer w n m s).2
  | Op.SetMyNseName request => SetMyNseName env w request
  | Op.GetMyNseName => (GetMyNseName w).2
  | Op.processPeerRequest n request => (processPeerRequest env w n request).2.2
  | Op.drive n => drivePeer env w n
  | Op.processNsEndpoints response remoteIp => (processNsEndpoints env w response remoteIp).2
  | Op.Request request => (Request env w request).2.2

/-- Run a sequence of operations, one after another. -/
def run (env : Collaborators) (w : World) (ops : List Op) : World :=
  ops.foldl (step env) w

/-- The endpoint as `MakeNewVL3Endpoint` builds it, before any request. -/
def newVL3ConnectComposite (nsConfigIPAddress ipamCidr : String) (remoteIpList : List String)
    (nsDiscoveryClientIsNil : Bool) : World :=
  { vxc :=
      { myEndpointName := ""
        nsConfigIPAddress := nsConfigIPAddress
        remoteNsIpList := remoteIpList
        ipamCidr := ipamCidr
        vl3NsePeers := []
        nsDiscoveryClientIsNil := nsDiscoveryClientIsNil
        outgoingNscLabels := []
        outgoingNscName := "" }
    trace := [] }

/-! ## Observations on traces and registries -/

/-- The connect requests in a trace, in order. -/
def connectCalls : List Event → List ConnectArgs
  | [] => []
  | Event.connectToEndpoint args :: rest => args :: connectCalls rest
  | _ :: rest => connectCalls rest

/-- The dataplane-apply requests in a trace, in order. -/
def applyCalls : List Event → List ProcessDataPlaneReq
  | [] => []
  | Event.processClientDP req :: rest => req :: applyCalls rest
  | _ :: rest => applyCalls rest

/-- The record stored under a name. -/
def World.peer (w : World) (name : String) : Option vL3NsePeer :=
  mapGet w.vxc.vl3NsePeers name

/-- Every record's `endpointName` is the key it is stored under, and no key
occurs twice: what holds of every Go map filled by `addPeer`. -/
def WellFormed (w : World) : Prop :=
  (mapKeys w.vxc.vl3NsePeers).Nodup ∧ ∀ kv ∈ w.vxc.vl3NsePeers, kv.2.endpointName = kv.1

/-- The first occurrences of a list, by structural recursion: the head, then
the first occurrences of the tail without the head. Used to reason about
`removeDuplicates`. -/
def firstOccurrences : List String → List String
  | [] => []
  | x :: xs => x :: (firstOccurrences xs).filter (fun s => decide (s ≠ x))

/-- The endpoint after a sequence of `addPeer` calls under one name, each call
with its own manager and site arguments. -/
def addPeerCalls (w : World) (name : String) (calls : List (String × String)) : World :=
  calls.foldl (fun w c => (addPeer w name c.1 c.2).2) w

/-- What the connect collaborator answers when `drive()` calls it for a record
in NotConnected: the call is made after `GetMyNseName` has taken and released
the registry lock, with routes list `[ipamCidr]`. -/
def connectOutcome (env : Collaborators) (w : World) (peer : vL3NsePeer) :
    Option Connection × Option String :=
  env.connectToEndpoint (w.trace ++ [Event.lockRegistry, Event.unlockRegistry])
    (connectArgsOf peer [w.vxc.ipamCidr])

/-- The request `createPeerConnectionRequest` hands to `ProcessClientDP`. -/
def applyRequestOf (peer : vL3NsePeer) (connHdl : Option Connection) : ProcessDataPlaneReq :=
  { ServiceName := "", Ifname := peer.endpointName, Connection := connHdl }

/-- What the dataplane collaborator answers when `drive()` calls it after a
connect that returned no error. -/
def applyOutcome (env : Collaborators) (w : World) (peer : vL3NsePeer) : Option String :=
  env.processClientDP
    (w.trace ++ [Event.lockRegistry, Event.unlockRegistry,
      Event.connectToEndpoint (connectArgsOf peer [w.vxc.ipamCidr])])
    (applyRequestOf peer (connectOutcome env w peer).1)

/-- The connect requests of a trace addressed to one endpoint name. -/
def connectCallsTo (name : String) (tr : List Event) : List ConnectArgs :=
  (connectCalls tr).filter (fun a => decide (a.endpointName = name))

/-- The dataplane requests of a trace keyed by one interface name. -/
def applyCallsTo (name : String) (tr : List Event) : List ProcessDataPlaneReq :=
  (applyCalls tr).filter (fun r => decide (r.Ifname = name))

/-- The record under `name` exists and is in ConnectedViaIncoming, in a
well-formed registry. -/
def ConnectedViaIncoming (name : String) (w : World) : Prop :=
  WellFormed w ∧ ∃ p, w.peer name = some p ∧ p.state = PeerStateConnRx

/-- From `w` to `w2` the record under `name` is still ConnectedViaIncoming and
no connect or dataplane request for `name` was added to the trace. -/
def NotDialled (name : String) (w w2 : World) : Prop :=
  ConnectedViaIncoming name w2 ∧
  connectCallsTo name w2.trace = connectCallsTo name w.trace ∧
  applyCallsTo name w2.trace = applyCallsTo name w.trace

/-- From `w` to `w2` the peer map is the same and no connect or dataplane
request was added to the trace. -/
def Quiet (w w2 : World) : Prop :=
  w2.vxc.vl3NsePeers = w.vxc.vl3NsePeers ∧
  connectCalls w2.trace = connectCalls w.trace ∧
  applyCalls w2.trace = applyCalls w.trace

/-- Every record of a well-formed registry is Connected or in ConnectionError. -/
def Settled (w : World) : Prop :=
  WellFormed w ∧
  ∀ n p, w.peer n = some p → p.state = PeerStateConn ∨ p.state = PeerStateConnErr

/-! ## Invariants of the records -/

/-- Every record of the registry satisfies `P`. -/
def AllPeers (P : vL3NsePeer → Prop) (w : World) : Prop :=
  ∀ n p, w.peer n = some p → P p

/-- The record is as `addPeer` creates it: NotConnected, no error. -/
def IsFresh (p : vL3NsePeer) : Prop :=
  p.state = PeerStateNotConn ∧ p.connErr = none

/-- The operations that are complete entry points of the endpoint: an inbound
peer request, a mesh-formation run, a request through `Request`. -/
def Op.isTopLevel : Op → Bool
  | Op.processPeerRequest _ _ => true
  | Op.processNsEndpoints _ _ => true
  | Op.Request _ => true
  | _ => false

/-- The prefix list `after` has every member of `before`, and when `before`
has no duplicates it is an initial segment of `after`, which then has none
either. -/
def Grows (before after : List String) : Prop :=
  (∀ s ∈ before, s ∈ after) ∧ (before.Nodup → before <+: after ∧ after.Nodup)

/-- Every record of `w` is still there in `w2`, with a prefix list that grew. -/
def PrefixesKept (w w2 : World) : Prop :=
  ∀ n p, w.peer n = some p →
    ∃ p2, w2.peer n = some p2 ∧ Grows p.excludedPrefixes p2.excludedPrefixes

/-! ## Observations on locks -/

/-- The locks held at a point of a trace: the registry lock, and the records
whose locks are held. -/
structure Held where
  registry : Bool
  peers : List String
  deriving DecidableEq, Repr

/-- No lock is held. -/
def Held.none : Held := { registry := false, peers := [] }

/-- The locks held after one more event. -/
def Held.after (h : Held) : Event → Held
  | Event.lockRegistry => { h with registry := true }
  | Event.unlockRegistry => { h with registry := false }
  | Event.lockPeer n => { h with peers := n :: h.peers }
  | Event.unlockPeer n => { h with peers := h.peers.erase n }
  | _ => h

/-- The locks held after a run of events. -/
def heldAfter (h : Held) (tr : List Event) : Held :=
  tr.foldl Held.after h

/-- The order registry-then-peer: in the events `tr`, starting with the locks
`h` held, the registry lock is never acquired while a peer lock is held. -/
def registryNeverUnderPeer : Held → List Event → Bool
  | _, [] => true
  | h, Event.lockRegistry :: rest =>
    h.peers.isEmpty && registryNeverUnderPeer (h.after Event.lockRegistry) rest
  | h, e :: rest => registryNeverUnderPeer (h.after e) rest

/-- The order the code keeps: in the events `tr`, starting with the locks `h`
held, a peer lock is only acquired while no lock at all is held, so never
while the registry lock is held. -/
def peerLocksTakenFree : Held → List Event → Bool
  | _, [] => true
  | h, Event.lockPeer n :: rest =>
    (!h.registry && h.peers.isEmpty) && peerLocksTakenFree (h.after (Event.lockPeer n)) rest
  | h, e :: rest => peerLocksTakenFree (h.after e) rest

/-- From `w` to `w2` events were only added, every peer lock among them was
taken with no lock held, and they leave no lock held, when none was held
before them. -/
def LockSafe (w w2 : World) : Prop :=
  ∃ evs, w2.trace = w.trace ++ evs ∧
    peerLocksTakenFree Held.none evs = true ∧ heldAfter Held.none evs = Held.none

/-! ## Records in flight -/

/-- The record as `createPeerConnectionRequest` leaves it at the assignment
`peer.state = PeerStateConnInProg`: what a second caller would find while the
connect request is in flight. -/
def inFlightAtConnect (peer : vL3NsePeer) : vL3NsePeer :=
  { peer with state := PeerStateConnInProg }

/-- The record as `createPeerConnectionRequest` leaves it when the connect
request returned the handle `connHdl` and no error: what a second caller would
find while `ProcessClientDP` is in flight. -/
def inFlightAtApply (peer : vL3NsePeer) (connHdl : Option Connection) : vL3NsePeer :=
  { inFlightAtConnect peer with connHdl := connHdl, connErr := none }

/-! ## Observations on discovery -/

/-- The service names of the discovery queries in a trace, in order. -/
def findCalls : List Event → List String
  | [] => []
  | Event.findNetworkService name :: rest => name :: findCalls rest
  | _ :: rest => findCalls rest

/-- The mesh-formation tasks started in a trace, in order: the response each
was handed and its site tag. -/
def spawnedTasks : List Event → List (Option FindNetworkServiceResponse × String)
  | [] => []
  | Event.goProcessNsEndpoints response remoteIp :: rest =>
    (response, remoteIp) :: spawnedTasks rest
  | _ :: rest => spawnedTasks rest

/-- The service names of the remote queries as the loop of `Request` composes
them: each site is appended to the name the previous iteration left in the
reused query object. -/
def remoteQueryNames : String → List String → List String
  | _, [] => []
  | reqName, remoteIp :: rest =>
    (reqName ++ "@" ++ remoteIp) :: remoteQueryNames (reqName ++ "@" ++ remoteIp) rest

/-- Isolation of one scope, in the spec's words: the scope is queried, and a
formation task tagged with the scope's site is started with the response
exactly when the query returned no error. -/
def scopeEvents (result : Option FindNetworkServiceResponse × Option String)
    (name site : String) : List Event :=
  Event.findNetworkService name ::
    (if result.2 = none then [Event.goProcessNsEndpoints result.1 site] else [])

/-- Isolation of the scopes, in the spec's words: the scopes (query name and
site tag) are handled one after another, each as `scopeEvents` says, whatever
happened to the scopes before it. -/
def scopesEvents (env : Collaborators) : List Event → List (String × String) → List Event
  | _, [] => []
  | tr, (name, site) :: rest =>
    scopeEvents (env.findNetworkService tr name) name site ++
      scopesEvents env (tr ++ scopeEvents (env.findNetworkService tr name) name site) rest

/-! ## Sample endpoints and collaborators -/

/-- A connection for network service `vl3`, as a peer or a client sends it. -/
def sampleConnection (labels : List (String × String)) (excluded : List String) : Connection :=
  { NetworkService := "vl3"
    NetworkServiceEndpointName := "nse-other"
    SourceNetworkServiceManagerName := "nsm-x"
    Labels := labels
    Context := { IpContext := { SrcIpAddr := "", ExcludedPrefixes := excluded, DstRoutes := [] } } }

/-- The handle the sample connect collaborator returns. -/
def sampleHandle : Connection := sampleConnection [] ["172.16.0.0/12"]

/-- Collaborators that always succeed. -/
def succeeding : Collaborators :=
  { myNseNameFunc := fun _ => "nse-self"
    connectToEndpoint := fun _ _ => (some sampleHandle, none)
    processClientDP := fun _ _ => none
    findNetworkService := fun _ _ => (some { NetworkServiceEndpoints := [] }, none)
    next := none }

/-- Collaborators whose dataplane step fails. -/
def applyFailing : Collaborators :=
  { succeeding with processClientDP := fun _ _ => some "dataplane error" }

/-- Collaborators whose connect step fails. -/
def connectFailing : Collaborators :=
  { succeeding with connectToEndpoint := fun _ _ => (none, some "connection refused") }

/-- Collaborators whose discovery fails for the query `vl3@site-b` only. -/
def siteBUnreachable : Collaborators :=
  { succeeding with
    findNetworkService := fun _ name =>
      if name = "vl3@site-b" then (none, some "unreachable")
      else (some { NetworkServiceEndpoints := [] }, none) }

/-- A fresh endpoint with one remote site. -/
def freshEndpoint : World :=
  newVL3ConnectComposite "10.60.0.0/16" "10.60.1.0/24" ["site-b"] false

/-- A fresh endpoint whose Self Identity is already `Self`. -/
def namedEndpoint : World :=
  { freshEndpoint with vxc := { freshEndpoint.vxc with myEndpointName := "Self" } }

/-- A record in NotConnected, as `addPeer` creates it. -/
def samplePeer : vL3NsePeer :=
  (addPeer freshEndpoint "A" "nsm-a" "").1

/-- An inbound request from the mesh peer `X` with one excluded prefix. -/
def peerRequestFromX : NetworkServiceRequest :=
  { Connection := sampleConnection [(LabelNseSource, "X")] ["10.0.0.0/8"] }

/-- A discovery result with the endpoints `A`, `B` and `Self`. -/
def discoveredABSelf : Option FindNetworkServiceResponse :=
  some { NetworkServiceEndpoints :=
    [ { Name := "A", NetworkServiceName := "vl3", NetworkServiceManagerName := "nsm-a" },
      { Name := "B", NetworkServiceName := "vl3", NetworkServiceManagerName := "nsm-b" },
      { Name := "Self", NetworkServiceName := "vl3", NetworkServiceManagerName := "nsm-s" } ] }

/-- A discovery result with the endpoint `X`. -/
def discoveredX : Option FindNetworkServiceResponse :=
  some { NetworkServiceEndpoints :=
    [ { Name := "X", NetworkServiceName := "vl3", NetworkServiceManagerName := "nsm-x" } ] }

/-- A client request for network service `vl3`: no peer label, one route
already present. -/
def clientRequestVl3 : NetworkServiceRequest :=
  { Connection :=
      { NetworkService := "vl3"
        NetworkServiceEndpointName := ""
        SourceNetworkServiceManagerName := "nsm-c"
        Labels := [("app", "client")]
        Context := { IpContext :=
          { SrcIpAddr := "", ExcludedPrefixes := [], DstRoutes := [{ Prefix := "192.168.0.0/24" }] } } } }

/-- A fresh endpoint with two remote sites. -/
def twoSiteEndpoint : World :=
  newVL3ConnectComposite "10.60.0.0/16" "10.60.1.0/24" ["site-b", "site-c"] false

/-- The endpoint after the inbound request from `X`. -/
def afterRequestFromX : World :=
  (processPeerRequest succeeding freshEndpoint "X" peerRequestFromX).2.2

/-- The record of `X` after the inbound request from `X`. -/
def recordOfX : vL3NsePeer :=
  { endpointName := "X"
    networkServiceManagerName := "nsm-x"
    state := PeerStateConnRx
    connHdl := some (processPeerRequest succeeding freshEndpoint "X" peerRequestFromX).2.1.Connection
    connErr := none
    excludedPrefixes := ["10.0.0.0/8"]
    remoteIp := "" }

/-- A second inbound request from `X`, with two excluded prefixes. -/
def secondRequestFromX : NetworkServiceRequest :=
  { Connection := sampleConnection [(LabelNseSource, "X")] ["172.16.0.0/12", "10.0.0.0/8"] }

/-! ## removeDuplicates: lemmas -/

theorem mem_firstOccurrences (xs : List String) (s : String) :
    s ∈ firstOccurrences xs ↔ s ∈ xs := by
  induction xs with
  | nil => simp [firstOccurrences]
  | cons x t ih =>
    simp only [firstOccurrences, List.mem_cons, List.mem_filter, ih, decide_eq_true_eq]
    by_cases h : s = x <;> simp [h]

theorem nodup_firstOccurrences (xs : List String) : (firstOccurrences xs).Nodup := by
  induction xs with
  | nil => simp [firstOccurrences]
  | cons x t ih =>
    simp only [firstOccurrences, List.nodup_cons, List.mem_filter, decide_eq_true_eq]
    exact ⟨fun h => h.2 rfl, ih.filter _⟩

theorem removeDuplicatesLoop_eq (xs : List String) :
    ∀ (enc : String → Bool) (res : List String), (∀ s, enc s = true ↔ s ∈ res) →
      removeDuplicatesLoop xs enc res
        = res ++ (firstOccurrences xs).filter (fun s => decide (s ∉ res)) := by
  induction xs with
  | nil => intro enc res _; simp [removeDuplicatesLoop, firstOccurrences]
  | cons v t ih =>
    intro enc res henc
    by_cases hv : v ∈ res
    · have he : enc v = true := (henc v).2 hv
      simp only [removeDuplicatesLoop, he, Bool.not_true, Bool.false_eq_true, if_false,
        firstOccurrences]
      rw [ih enc res henc, List.filter_cons]
      simp only [hv, not_true_eq_false, decide_False, Bool.false_eq_true, if_false,
        List.filter_filter]
      congr 1
      apply List.filter_congr
      intro s _
      by_cases hs : s ∈ res
      · simp [hs]
      · have : s ≠ v := fun h => hs (h ▸ hv)
        simp [hs, this]
    · have he : enc v = false := by
        cases h : enc v with
        | false => rfl
        | true => exact absurd ((henc v).1 h) hv
      simp only [removeDuplicatesLoop, he, Bool.not_false, if_true, firstOccurrences]
      rw [ih _ (res ++ [v]), List.filter_cons]
      · simp only [hv, not_false_eq_true, decide_True, if_true, List.filter_filter,
          List.append_assoc, List.singleton_append]
        congr 2
        apply List.filter_congr
        intro s _
        by_cases hs : s ∈ res <;> by_cases hsv : s = v <;> simp [hs, hsv]
      · intro s
        by_cases hsv : s = v
        · simp [hsv]
        · simp [hsv, henc s]

theorem removeDuplicates_eq_firstOccurrences (xs : List String) :
    removeDuplicates xs = firstOccurrences xs := by
  unfold removeDuplicates
  rw [removeDuplicatesLoop_eq xs (fun _ => false) [] (by simp)]
  simp

theorem firstOccurrences_append (a b : List String) :
    firstOccurrences (a ++ b)
      = firstOccurrences a ++ (firstOccurrences b).filter (fun s => decide (s ∉ a)) := by
  induction a with
  | nil => simp [firstOccurrences]
  | cons x t ih =>
    rw [List.cons_append]
    simp only [firstOccurrences, ih, List.filter_append, List.filter_filter, List.cons_append]
    congr 2
    apply List.filter_congr
    intro s _
    by_cases hs : s ∈ t <;> by_cases hsx : s = x <;> simp [hs, hsx]

theorem firstOccurrences_of_nodup (xs : List String) (h : xs.Nodup) :
    firstOccurrences xs = xs := by
  induction xs with
  | nil => rfl
  | cons x t ih =>
    rw [List.nodup_cons] at h
    simp only [firstOccurrences, ih h.2, List.cons.injEq, true_and]
    rw [List.filter_eq_self]
    intro s hs
    have : s ≠ x := fun e => h.1 (e ▸ hs)
    simp [this]

theorem firstOccurrences_enumFrom (xs : List String) :
    ∀ pre : List String,
      ((xs.enumFrom pre.length).filter
          (fun p => decide ((pre ++ xs).indexOf p.2 = p.1))).map Prod.snd
        = (firstOccurrences xs).filter (fun s => decide (s ∉ pre)) := by
  induction xs with
  | nil => intro pre; simp [firstOccurrences]
  | cons x t ih =>
    intro pre
    have hstep := ih (pre ++ [x])
    simp only [List.length_append, List.length_singleton, List.append_assoc,
      List.singleton_append] at hstep
    have hx : (pre ++ x :: t).indexOf x = pre.length ↔ x ∉ pre := by
      constructor
      · intro h hm
        have h1 : (pre ++ x :: t).indexOf x = pre.indexOf x := List.indexOf_append_of_mem hm
        have h2 := List.indexOf_lt_length.2 hm
        omega
      · intro hm
        rw [List.indexOf_append_of_not_mem hm]
        simp
    simp only [List.enumFrom_cons, firstOccurrences, List.filter_cons, hx]
    by_cases hm : x ∈ pre
    · simp only [hm, not_true_eq_false, decide_False, Bool.false_eq_true, if_false]
      rw [hstep, List.filter_filter]
      apply List.filter_congr
      intro s _
      by_cases hs : s ∈ pre
      · simp [hs]
      · have : s ≠ x := fun e => hs (e ▸ hm)
        simp [hs, this]
    · simp only [hm, not_false_eq_true, decide_True, if_true, List.map_cons, List.cons.injEq,
        true_and]
      rw [hstep, List.filter_filter]
      apply List.filter_congr
      intro s _
      by_cases hs : s ∈ pre <;> by_cases hsx : s = x <;> simp [hs, hsx]

/-! ## Claims about removeDuplicates -/

/-- C3: `removeDuplicates` is an order-preserving dedup. Its result has no
string twice, has exactly the strings of its argument, and is the subsequence
of the argument made of the positions that are the first occurrence of their
string. -/
theorem removeDuplicates_is_first_occurrence_dedup (xs : List String) :
    (removeDuplicates xs).Nodup ∧
    (∀ s, s ∈ removeDuplicates xs ↔ s ∈ xs) ∧
    removeDuplicates xs =
      ((xs.enum.filter (fun p => decide (xs.indexOf p.2 = p.1))).map Prod.snd) ∧
    List.Sublist (removeDuplicates xs) xs := by
  have hfo := firstOccurrences_enumFrom xs []
  simp only [List.length_nil, List.nil_append, List.not_mem_nil, not_false_eq_true, decide_True,
    List.filter_true] at hfo
  have heq : removeDuplicates xs =
      ((xs.enum.filter (fun p => decide (xs.indexOf p.2 = p.1))).map Prod.snd) := by
    rw [removeDuplicates_eq_firstOccurrences, ← hfo]
    rfl
  refine ⟨?_, ?_, heq, ?_⟩
  · rw [removeDuplicates_eq_firstOccurrences]
    exact nodup_firstOccurrences xs
  · intro s
    rw [removeDuplicates_eq_firstOccurrences]
    exact mem_firstOccurrences xs s
  · rw [heq]
    have h1 : List.Sublist
        ((xs.enum.filter (fun p => decide (xs.indexOf p.2 = p.1))).map Prod.snd)
        (xs.enum.map Prod.snd) := List.Sublist.map _ (List.filter_sublist _)
    rwa [List.enum_map_snd] at h1

theorem removeDuplicates_append_again (P L : List String) :
    removeDuplicates (removeDuplicates (P ++ L) ++ L) = removeDuplicates (P ++ L) := by
  simp only [removeDuplicates_eq_firstOccurrences]
  rw [firstOccurrences_append (firstOccurrences (P ++ L)) L,
    firstOccurrences_of_nodup _ (nodup_firstOccurrences (P ++ L))]
  have : (firstOccurrences L).filter (fun s => decide (s ∉ firstOccurrences (P ++ L))) = [] := by
    rw [List.filter_eq_nil_iff]
    intro s hs
    have h1 : s ∈ L := (mem_firstOccurrences L s).1 hs
    have h2 : s ∈ firstOccurrences (P ++ L) :=
      (mem_firstOccurrences (P ++ L) s).2 (List.mem_append_right _ h1)
    simp [h2]
  rw [this, List.append_nil]

/-! ## Go maps: lemmas -/

theorem mapGet_mapSet_self {β : Type} (m : List (String × β)) (k : String) (v : β) :
    mapGet (mapSet m k v) k = some v := by
  induction m with
  | nil => simp [mapSet, mapGet]
  | cons kv t ih =>
    obtain ⟨k', v'⟩ := kv
    by_cases h : k' = k <;> simp [mapSet, mapGet, h, ih]

theorem mapGet_mapSet_of_ne {β : Type} (m : List (String × β)) (k k' : String) (v : β)
    (h : k' ≠ k) : mapGet (mapSet m k v) k' = mapGet m k' := by
  induction m with
  | nil => simp [mapSet, mapGet, Ne.symm h]
  | cons kv t ih =>
    obtain ⟨k0, v0⟩ := kv
    by_cases h0 : k0 = k
    · subst h0
      simp [mapSet, mapGet, Ne.symm h]
    · by_cases h1 : k0 = k'
      · subst h1
        simp [mapSet, mapGet, h0]
      · simp [mapSet, mapGet, h0, h1, ih]

theorem mapGet_eq_none_iff {β : Type} (m : List (String × β)) (k : String) :
    mapGet m k = none ↔ k ∉ mapKeys m := by
  induction m with
  | nil => simp [mapGet, mapKeys]
  | cons kv t ih =>
    obtain ⟨k0, v0⟩ := kv
    by_cases h0 : k0 = k
    · simp [mapGet, mapKeys, h0]
    · have h0' : ¬ k = k0 := fun e => h0 e.symm
      simpa [mapGet, mapKeys, h0, h0'] using ih

theorem mapGet_mem {β : Type} (m : List (String × β)) (k : String) (v : β)
    (h : mapGet m k = some v) : (k, v) ∈ m := by
  induction m with
  | nil => simp [mapGet] at h
  | cons kv t ih =>
    obtain ⟨k0, v0⟩ := kv
    by_cases h0 : k0 = k
    · simp [mapGet, h0] at h
      simp [h0, h]
    · simp [mapGet, h0] at h
      exact List.mem_cons_of_mem _ (ih h)

theorem mapGet_of_mem {β : Type} (m : List (String × β)) (k : String) (v : β)
    (hn : (mapKeys m).Nodup) (h : (k, v) ∈ m) : mapGet m k = some v := by
  induction m with
  | nil => simp at h
  | cons kv t ih =>
    obtain ⟨k0, v0⟩ := kv
    simp only [mapKeys, List.map_cons, List.nodup_cons] at hn
    rcases List.mem_cons.1 h with h1 | h1
    · cases h1
      simp [mapGet]
    · have hk : k ∈ t.map Prod.fst := List.mem_map.2 ⟨(k, v), h1, rfl⟩
      have h0 : k0 ≠ k := fun e => hn.1 (e ▸ hk)
      simp only [mapGet, h0, if_false]
      exact ih hn.2 h1

theorem mapKeys_mapSet_of_some {β : Type} (m : List (String × β)) (k : String) (v v0 : β)
    (h : mapGet m k = some v0) : mapKeys (mapSet m k v) = mapKeys m := by
  induction m with
  | nil => simp [mapGet] at h
  | cons kv t ih =>
    obtain ⟨k0, v1⟩ := kv
    by_cases h0 : k0 = k
    · simp [mapSet, mapKeys, h0]
    · simp only [mapGet, h0, if_false] at h
      have := ih h
      simp only [mapKeys] at this
      simp [mapSet, mapKeys, h0, this]

theorem mapKeys_mapSet_of_none {β : Type} (m : List (String × β)) (k : String) (v : β)
    (h : mapGet m k = none) : mapKeys (mapSet m k v) = mapKeys m ++ [k] := by
  induction m with
  | nil => simp [mapSet, mapKeys]
  | cons kv t ih =>
    obtain ⟨k0, v1⟩ := kv
    by_cases h0 : k0 = k
    · simp [mapGet, h0] at h
    · simp only [mapGet, h0, if_false] at h
      have := ih h
      simp only [mapKeys] at this
      simp [mapSet, mapKeys, h0, this]

theorem mem_mapSet {β : Type} (m : List (String × β)) (k : String) (v : β) (kv : String × β)
    (h : kv ∈ mapSet m k v) : kv = (k, v) ∨ kv ∈ m := by
  induction m with
  | nil => simp [mapSet] at h; exact Or.inl h
  | cons kv0 t ih =>
    obtain ⟨k0, v0⟩ := kv0
    by_cases h0 : k0 = k
    · simp only [mapSet, h0, if_true, List.mem_cons] at h
      rcases h with h | h
      · exact Or.inl h
      · exact Or.inr (List.mem_cons_of_mem _ h)
    · simp only [mapSet, h0, if_false, List.mem_cons] at h
      rcases h with h | h
      · exact Or.inr (h ▸ List.mem_cons_self _ _)
      · rcases ih h with h1 | h1
        · exact Or.inl h1
        · exact Or.inr (List.mem_cons_of_mem _ h1)

/-! ## Worlds: projections -/

@[simp] theorem emit_vxc (w : World) (e : Event) : (w.emit e).vxc = w.vxc := rfl

@[simp] theorem emit_trace (w : World) (e : Event) : (w.emit e).trace = w.trace ++ [e] := rfl

@[simp] theorem emit_peer (w : World) (e : Event) (n : String) : (w.emit e).peer n = w.peer n :=
  rfl

@[simp] theorem storePeer_trace (w : World) (n : String) (p : vL3NsePeer) :
    (w.storePeer n p).trace = w.trace := rfl

@[simp] theorem storePeer_peers (w : World) (n : String) (p : vL3NsePeer) :
    (w.storePeer n p).vxc.vl3NsePeers = mapSet w.vxc.vl3NsePeers n p := rfl

@[simp] theorem storePeer_myEndpointName (w : World) (n : String) (p : vL3NsePeer) :
    (w.storePeer n p).vxc.myEndpointName = w.vxc.myEndpointName := rfl

@[simp] theorem storePeer_ipamCidr (w : World) (n : String) (p : vL3NsePeer) :
    (w.storePeer n p).vxc.ipamCidr = w.vxc.ipamCidr := rfl

@[simp] theorem storePeer_peer_self (w : World) (n : String) (p : vL3NsePeer) :
    (w.storePeer n p).peer n = some p := by
  simp [World.peer, mapGet_mapSet_self]

theorem storePeer_peer_of_ne (w : World) (n n' : String) (p : vL3NsePeer) (h : n' ≠ n) :
    (w.storePeer n p).peer n' = w.peer n' := by
  simp [World.peer, mapGet_mapSet_of_ne _ _ _ _ h]

/-! ## addPeer: lemmas -/

theorem addPeer_of_some (w : World) (n m s : String) (p : vL3NsePeer) (h : w.peer n = some p) :
    addPeer w n m s = (p, (w.emit Event.lockRegistry).emit Event.unlockRegistry) := by
  have h' : mapGet w.vxc.vl3NsePeers n = some p := h
  simp [addPeer, h']

theorem addPeer_of_none (w : World) (n m s : String) (h : w.peer n = none) :
    addPeer w n m s =
      ({ endpointName := n, networkServiceManagerName := m, state := PeerStateNotConn,
         connHdl := none, connErr := none, excludedPrefixes := [], remoteIp := s },
       ((w.emit Event.lockRegistry).storePeer n
          { endpointName := n, networkServiceManagerName := m, state := PeerStateNotConn,
            connHdl := none, connErr := none, excludedPrefixes := [], remoteIp := s }).emit
          Event.unlockRegistry) := by
  have h' : mapGet w.vxc.vl3NsePeers n = none := h
  simp [addPeer, h']

theorem addPeer_peer_self (w : World) (n m s : String) :
    (addPeer w n m s).2.peer n = some (addPeer w n m s).1 := by
  cases h : w.peer n with
  | none => rw [addPeer_of_none w n m s h]; simp
  | some p => rw [addPeer_of_some w n m s p h]; simpa using h

theorem addPeer_peer_of_ne (w : World) (n m s n' : String) (h : n' ≠ n) :
    (addPeer w n m s).2.peer n' = w.peer n' := by
  cases h0 : w.peer n with
  | none =>
    rw [addPeer_of_none w n m s h0]
    simp [storePeer_peer_of_ne _ _ _ _ h]
  | some p => rw [addPeer_of_some w n m s p h0]; simp

theorem addPeer_trace (w : World) (n m s : String) :
    (addPeer w n m s).2.trace = w.trace ++ [Event.lockRegistry, Event.unlockRegistry] := by
  cases h0 : w.peer n with
  | none => rw [addPeer_of_none w n m s h0]; simp
  | some p => rw [addPeer_of_some w n m s p h0]; simp

theorem addPeer_myEndpointName (w : World) (n m s : String) :
    (addPeer w n m s).2.vxc.myEndpointName = w.vxc.myEndpointName := by
  cases h0 : w.peer n with
  | none => rw [addPeer_of_none w n m s h0]; simp
  | some p => rw [addPeer_of_some w n m s p h0]; simp

theorem addPeer_ipamCidr (w : World) (n m s : String) :
    (addPeer w n m s).2.vxc.ipamCidr = w.vxc.ipamCidr := by
  cases h0 : w.peer n with
  | none => rw [addPeer_of_none w n m s h0]; simp
  | some p => rw [addPeer_of_some w n m s p h0]; simp

theorem addPeer_nodup (w : World) (n m s : String) (h : (mapKeys w.vxc.vl3NsePeers).Nodup) :
    (mapKeys (addPeer w n m s).2.vxc.vl3NsePeers).Nodup := by
  cases h0 : w.peer n with
  | none =>
    rw [addPeer_of_none w n m s h0]
    have h1 : mapGet w.vxc.vl3NsePeers n = none := h0
    simp only [emit_vxc, storePeer_peers, mapKeys_mapSet_of_none _ _ _ h1]
    rw [List.nodup_append]
    refine ⟨h, by simp, ?_⟩
    intro a ha hb
    have : a = n := by simpa using hb
    exact (mapGet_eq_none_iff _ _).1 h1 (this ▸ ha)
  | some p => rw [addPeer_of_some w n m s p h0]; simpa using h

theorem addPeer_keys (w : World) (n m s k : String) :
    k ∈ mapKeys (addPeer w n m s).2.vxc.vl3NsePeers ↔ k ∈ mapKeys w.vxc.vl3NsePeers ∨ k = n := by
  cases h0 : w.peer n with
  | none =>
    rw [addPeer_of_none w n m s h0]
    have h1 : mapGet w.vxc.vl3NsePeers n = none := h0
    simp [mapKeys_mapSet_of_none _ _ _ h1]
  | some p =>
    rw [addPeer_of_some w n m s p h0]
    have h1 : mapGet w.vxc.vl3NsePeers n = some p := h0
    have hn : n ∈ mapKeys w.vxc.vl3NsePeers := by
      by_contra hc
      rw [(mapGet_eq_none_iff _ _).2 hc] at h1
      cases h1
    constructor
    · intro hk; exact Or.inl (by simpa using hk)
    · rintro (hk | hk)
      · simpa using hk
      · subst hk; simpa using hn

theorem addPeerCalls_of_some (w : World) (name : String) (p : vL3NsePeer)
    (calls : List (String × String)) :
    w.peer name = some p → (addPeerCalls w name calls).vxc = w.vxc := by
  induction calls generalizing w with
  | nil => intro _; rfl
  | cons c t ih =>
    intro h
    have e : addPeerCalls w name (c :: t) = addPeerCalls (addPeer w name c.1 c.2).2 name t := rfl
    rw [e, addPeer_of_some w name c.1 c.2 p h]
    rw [ih _ (by simpa using h)]
    simp

/-! ## Claims about the registry -/

/-- C1: `addPeer` is idempotent and the first call wins. After any non-empty
sequence of `addPeer` calls under one name, with arbitrary manager and site
arguments, the map holds exactly one record under that name; if the name was
absent the record is the fresh one of the first call (NotConnected, no handle,
no error, no prefixes, manager and site of the first call); if it was present
the record is the old one, unchanged; every call of the sequence returns that
record; records under other names are untouched. -/
theorem addPeer_idempotent_first_call_wins (w : World) (name m s : String)
    (rest : List (String × String)) (hnd : (mapKeys w.vxc.vl3NsePeers).Nodup) :
    (mapKeys (addPeerCalls w name ((m, s) :: rest)).vxc.vl3NsePeers).count name = 1 ∧
    (w.peer name = none →
      (addPeerCalls w name ((m, s) :: rest)).peer name =
        some { endpointName := name, networkServiceManagerName := m, state := PeerStateNotConn,
               connHdl := none, connErr := none, excludedPrefixes := [], remoteIp := s }) ∧
    (∀ p, w.peer name = some p → (addPeerCalls w name ((m, s) :: rest)).peer name = some p) ∧
    (∀ pre c post, (m, s) :: rest = pre ++ c :: post →
      some (addPeer (addPeerCalls w name pre) name c.1 c.2).1 =
        (addPeerCalls w name ((m, s) :: rest)).peer name) ∧
    (∀ other, other ≠ name →
      (addPeerCalls w name ((m, s) :: rest)).peer other = w.peer other) := by
  have hfirst := addPeer_peer_self w name m s
  have e : addPeerCalls w name ((m, s) :: rest) = addPeerCalls (addPeer w name m s).2 name rest :=
    rfl
  have hv : (addPeerCalls w name ((m, s) :: rest)).vxc = (addPeer w name m s).2.vxc := by
    rw [e]; exact addPeerCalls_of_some _ _ _ _ hfirst
  have hpeer : ∀ k, (addPeerCalls w name ((m, s) :: rest)).peer k = (addPeer w name m s).2.peer k :=
    fun k => by simp [World.peer, hv]
  refine ⟨?_, ?_, ?_, ?_, ?_⟩
  · rw [hv]
    apply List.count_eq_one_of_mem (addPeer_nodup w name m s hnd)
    exact (addPeer_keys w name m s name).2 (Or.inr rfl)
  · intro h
    rw [hpeer, hfirst, addPeer_of_none w name m s h]
  · intro p h
    rw [hpeer, hfirst, addPeer_of_some w name m s p h]
  · intro pre c post hsplit
    rw [hpeer, hfirst]
    cases pre with
    | nil =>
      simp only [List.nil_append, List.cons.injEq] at hsplit
      rw [← hsplit.1]
      rfl
    | cons c0 pre' =>
      simp only [List.cons_append, List.cons.injEq] at hsplit
      rw [← hsplit.1]
      have e' : addPeerCalls w name ((m, s) :: pre') =
          addPeerCalls (addPeer w name m s).2 name pre' := rfl
      have hv' := addPeerCalls_of_some _ name _ pre' hfirst
      have hp' : (addPeerCalls w name ((m, s) :: pre')).peer name
          = some (addPeer w name m s).1 := by
        rw [e']; simp only [World.peer, hv']; exact hfirst
      rw [addPeer_of_some _ name c.1 c.2 _ hp']
  · intro other hne
    rw [hpeer, addPeer_peer_of_ne w name m s other hne]

/-! ## Traces: lemmas -/

theorem connectCalls_append (a b : List Event) :
    connectCalls (a ++ b) = connectCalls a ++ connectCalls b := by
  induction a with
  | nil => rfl
  | cons e t ih => cases e <;> simp [connectCalls, ih]

theorem applyCalls_append (a b : List Event) :
    applyCalls (a ++ b) = applyCalls a ++ applyCalls b := by
  induction a with
  | nil => rfl
  | cons e t ih => cases e <;> simp [applyCalls, ih]

/-! ## The state machine: lemmas -/

@[simp] theorem setOutgoingNscLabel_trace (w : World) :
    (setOutgoingNscLabel w).trace = w.trace ++ [Event.lockRegistry, Event.unlockRegistry] := by
  simp [setOutgoingNscLabel, GetMyNseName]

@[simp] theorem setOutgoingNscLabel_peers (w : World) :
    (setOutgoingNscLabel w).vxc.vl3NsePeers = w.vxc.vl3NsePeers := rfl

@[simp] theorem setOutgoingNscLabel_myEndpointName (w : World) :
    (setOutgoingNscLabel w).vxc.myEndpointName = w.vxc.myEndpointName := rfl

@[simp] theorem setOutgoingNscLabel_ipamCidr (w : World) :
    (setOutgoingNscLabel w).vxc.ipamCidr = w.vxc.ipamCidr := rfl

theorem ConnectPeerEndpoint_of_ne (env : Collaborators) (w : World) (peer : vL3NsePeer)
    (h : peer.state ≠ PeerStateNotConn) : ConnectPeerEndpoint env w peer = (none, peer, w) := by
  unfold ConnectPeerEndpoint
  cases hs : peer.state <;> simp_all

theorem ConnectPeerEndpoint_connect_fails (env : Collaborators) (w : World) (peer : vL3NsePeer)
    (h : peer.state = PeerStateNotConn) (hc : (connectOutcome env w peer).2 ≠ none) :
    ConnectPeerEndpoint env w peer =
      ((connectOutcome env w peer).2,
       { peer with
         state := PeerStateConnErr
         connHdl := none
         connErr := (connectOutcome env w peer).2 },
       (setOutgoingNscLabel w).emit
         (Event.connectToEndpoint (connectArgsOf peer [w.vxc.ipamCidr]))) := by
  have hargs : connectArgsOf { peer with state := PeerStateConnInProg } [w.vxc.ipamCidr]
      = connectArgsOf peer [w.vxc.ipamCidr] := rfl
  unfold connectOutcome at hc
  unfold ConnectPeerEndpoint
  rw [h]
  simp [createPeerConnectionRequest, performPeerConnectRequest, h, hargs, hc, connectOutcome]

theorem ConnectPeerEndpoint_apply_fails (env : Collaborators) (w : World) (peer : vL3NsePeer)
    (h : peer.state = PeerStateNotConn) (hc : (connectOutcome env w peer).2 = none)
    (ha : applyOutcome env w peer ≠ none) :
    ConnectPeerEndpoint env w peer =
      (applyOutcome env w peer,
       { peer with
         state := PeerStateConnErr
         connHdl := (connectOutcome env w peer).1
         connErr := applyOutcome env w peer },
       ((setOutgoingNscLabel w).emit
          (Event.connectToEndpoint (connectArgsOf peer [w.vxc.ipamCidr]))).emit
         (Event.processClientDP (applyRequestOf peer (connectOutcome env w peer).1))) := by
  have hargs : connectArgsOf { peer with state := PeerStateConnInProg } [w.vxc.ipamCidr]
      = connectArgsOf peer [w.vxc.ipamCidr] := rfl
  unfold applyOutcome applyRequestOf connectOutcome at ha
  unfold connectOutcome at hc
  unfold ConnectPeerEndpoint
  rw [h]
  simp [createPeerConnectionRequest, performPeerConnectRequest, h, hargs, hc, ha, connectOutcome,
    applyOutcome, applyRequestOf]

theorem ConnectPeerEndpoint_succeeds (env : Collaborators) (w : World) (peer : vL3NsePeer)
    (h : peer.state = PeerStateNotConn) (hc : (connectOutcome env w peer).2 = none)
    (ha : applyOutcome env w peer = none) :
    ConnectPeerEndpoint env w peer =
      (none,
       { peer with
         state := PeerStateConn
         connHdl := (connectOutcome env w peer).1
         connErr := none },
       ((setOutgoingNscLabel w).emit
          (Event.connectToEndpoint (connectArgsOf peer [w.vxc.ipamCidr]))).emit
         (Event.processClientDP (applyRequestOf peer (connectOutcome env w peer).1))) := by
  have hargs : connectArgsOf { peer with state := PeerStateConnInProg } [w.vxc.ipamCidr]
      = connectArgsOf peer [w.vxc.ipamCidr] := rfl
  unfold applyOutcome applyRequestOf connectOutcome at ha
  unfold connectOutcome at hc
  unfold ConnectPeerEndpoint
  rw [h]
  simp [createPeerConnectionRequest, performPeerConnectRequest, h, hargs, hc, ha, connectOutcome,
    applyRequestOf]

/-- The four ways `drive()` can go. -/
theorem ConnectPeerEndpoint_cases (env : Collaborators) (w : World) (peer : vL3NsePeer) :
    (peer.state ≠ PeerStateNotConn ∧ ConnectPeerEndpoint env w peer = (none, peer, w)) ∨
    (peer.state = PeerStateNotConn ∧ (connectOutcome env w peer).2 ≠ none ∧
      ConnectPeerEndpoint env w peer =
        ((connectOutcome env w peer).2,
         { peer with
           state := PeerStateConnErr
           connHdl := none
           connErr := (connectOutcome env w peer).2 },
         (setOutgoingNscLabel w).emit
           (Event.connectToEndpoint (connectArgsOf peer [w.vxc.ipamCidr])))) ∨
    (peer.state = PeerStateNotConn ∧ (connectOutcome env w peer).2 = none ∧
      applyOutcome env w peer ≠ none ∧
      ConnectPeerEndpoint env w peer =
        (applyOutcome env w peer,
         { peer with
           state := PeerStateConnErr
           connHdl := (connectOutcome env w peer).1
           connErr := applyOutcome env w peer },
         ((setOutgoingNscLabel w).emit
            (Event.connectToEndpoint (connectArgsOf peer [w.vxc.ipamCidr]))).emit
           (Event.processClientDP (applyRequestOf peer (connectOutcome env w peer).1)))) ∨
    (peer.state = PeerStateNotConn ∧ (connectOutcome env w peer).2 = none ∧
      applyOutcome env w peer = none ∧
      ConnectPeerEndpoint env w peer =
        (none,
         { peer with
           state := PeerStateConn
           connHdl := (connectOutcome env w peer).1
           connErr := none },
         ((setOutgoingNscLabel w).emit
            (Event.connectToEndpoint (connectArgsOf peer [w.vxc.ipamCidr]))).emit
           (Event.processClientDP (applyRequestOf peer (connectOutcome env w peer).1)))) := by
  by_cases h : peer.state = PeerStateNotConn
  · by_cases hc : (connectOutcome env w peer).2 = none
    · by_cases ha : applyOutcome env w peer = none
      · exact Or.inr (Or.inr (Or.inr ⟨h, hc, ha, ConnectPeerEndpoint_succeeds env w peer h hc ha⟩))
      · exact Or.inr (Or.inr (Or.inl ⟨h, hc, ha,
          ConnectPeerEndpoint_apply_fails env w peer h hc ha⟩))
    · exact Or.inr (Or.inl ⟨h, hc, ConnectPeerEndpoint_connect_fails env w peer h hc⟩)
  · exact Or.inl ⟨h, ConnectPeerEndpoint_of_ne env w peer h⟩

theorem ConnectPeerEndpoint_endpointName (env : Collaborators) (w : World) (peer : vL3NsePeer) :
    (ConnectPeerEndpoint env w peer).2.1.endpointName = peer.endpointName := by
  rcases ConnectPeerEndpoint_cases env w peer with h | h | h | h
  · rw [h.2]
  · rw [h.2.2]
  · rw [h.2.2.2]
  · rw [h.2.2.2]

theorem ConnectPeerEndpoint_excludedPrefixes (env : Collaborators) (w : World)
    (peer : vL3NsePeer) :
    (ConnectPeerEndpoint env w peer).2.1.excludedPrefixes = peer.excludedPrefixes := by
  rcases ConnectPeerEndpoint_cases env w peer with h | h | h | h
  · rw [h.2]
  · rw [h.2.2]
  · rw [h.2.2.2]
  · rw [h.2.2.2]

theorem ConnectPeerEndpoint_peers (env : Collaborators) (w : World) (peer : vL3NsePeer) :
    (ConnectPeerEndpoint env w peer).2.2.vxc.vl3NsePeers = w.vxc.vl3NsePeers := by
  rcases ConnectPeerEndpoint_cases env w peer with h | h | h | h
  · rw [h.2]
  · rw [h.2.2]; simp
  · rw [h.2.2.2]; simp
  · rw [h.2.2.2]; simp

theorem ConnectPeerEndpoint_myEndpointName (env : Collaborators) (w : World)
    (peer : vL3NsePeer) :
    (ConnectPeerEndpoint env w peer).2.2.vxc.myEndpointName = w.vxc.myEndpointName := by
  rcases ConnectPeerEndpoint_cases env w peer with h | h | h | h
  · rw [h.2]
  · rw [h.2.2]; simp
  · rw [h.2.2.2]; simp
  · rw [h.2.2.2]; simp

theorem ConnectPeerEndpoint_ipamCidr (env : Collaborators) (w : World) (peer : vL3NsePeer) :
    (ConnectPeerEndpoint env w peer).2.2.vxc.ipamCidr = w.vxc.ipamCidr := by
  rcases ConnectPeerEndpoint_cases env w peer with h | h | h | h
  · rw [h.2]
  · rw [h.2.2]; simp
  · rw [h.2.2.2]; simp
  · rw [h.2.2.2]; simp

theorem ConnectPeerEndpoint_state (env : Collaborators) (w : World) (peer : vL3NsePeer) :
    (peer.state ≠ PeerStateNotConn ∧ (ConnectPeerEndpoint env w peer).2.1.state = peer.state) ∨
    (peer.state = PeerStateNotConn ∧
      ((ConnectPeerEndpoint env w peer).2.1.state = PeerStateConn ∨
       (ConnectPeerEndpoint env w peer).2.1.state = PeerStateConnErr)) := by
  rcases ConnectPeerEndpoint_cases env w peer with h | h | h | h
  · rw [h.2]; exact Or.inl ⟨h.1, rfl⟩
  · rw [h.2.2]; exact Or.inr ⟨h.1, Or.inr rfl⟩
  · rw [h.2.2.2]; exact Or.inr ⟨h.1, Or.inr rfl⟩
  · rw [h.2.2.2]; exact Or.inr ⟨h.1, Or.inl rfl⟩

/-- The connect requests of one `drive()`: none, or one for the record itself,
and only from NotConnected. -/
theorem ConnectPeerEndpoint_connectCalls (env : Collaborators) (w : World) (peer : vL3NsePeer) :
    connectCalls (ConnectPeerEndpoint env w peer).2.2.trace =
      connectCalls w.trace ++
        (if peer.state = PeerStateNotConn then [connectArgsOf peer [w.vxc.ipamCidr]] else []) := by
  rcases ConnectPeerEndpoint_cases env w peer with h | h | h | h
  · rw [h.2]; simp [h.1]
  · rw [h.2.2]; simp [h.1, connectCalls_append, connectCalls]
  · rw [h.2.2.2]; simp [h.1, connectCalls_append, connectCalls]
  · rw [h.2.2.2]; simp [h.1, connectCalls_append, connectCalls]

/-- The dataplane requests of one `drive()`: none, or one keyed by the record's
own name, and only from NotConnected. -/
theorem ConnectPeerEndpoint_applyCalls (env : Collaborators) (w : World) (peer : vL3NsePeer) :
    applyCalls (ConnectPeerEndpoint env w peer).2.2.trace =
      applyCalls w.trace ++
        (if peer.state = PeerStateNotConn ∧ (connectOutcome env w peer).2 = none then
          [applyRequestOf peer (connectOutcome env w peer).1] else []) := by
  rcases ConnectPeerEndpoint_cases env w peer with h | h | h | h
  · rw [h.2]; simp [h.1]
  · rw [h.2.2]; simp [h.1, h.2.1, applyCalls_append, applyCalls]
  · rw [h.2.2.2]; simp [h.1, h.2.1, applyCalls_append, applyCalls]
  · rw [h.2.2.2]; simp [h.1, h.2.1, applyCalls_append, applyCalls]

/-! ## Claims about the state machine -/

/-- C5: a record driven twice from NotConnected dials at most once. Whatever
the collaborators answer, the two calls together issue at most one connect
request and at most one dataplane request; after the first call the state is
not NotConnected, and the second call (whatever the collaborators would answer
then) returns nil, calls no collaborator and changes neither the record nor
the endpoint. A record in ConnectionError is never retried. -/
theorem drive_twice_dials_at_most_once (env env2 : Collaborators) (w : World)
    (peer : vL3NsePeer) (hs : peer.state = PeerStateNotConn) :
    (ConnectPeerEndpoint env w peer).2.1.state ≠ PeerStateNotConn ∧
    ConnectPeerEndpoint env2 (ConnectPeerEndpoint env w peer).2.2
        (ConnectPeerEndpoint env w peer).2.1 =
      (none, (ConnectPeerEndpoint env w peer).2.1, (ConnectPeerEndpoint env w peer).2.2) ∧
    (connectCalls (ConnectPeerEndpoint env2 (ConnectPeerEndpoint env w peer).2.2
        (ConnectPeerEndpoint env w peer).2.1).2.2.trace).length
      ≤ (connectCalls w.trace).length + 1 ∧
    (applyCalls (ConnectPeerEndpoint env2 (ConnectPeerEndpoint env w peer).2.2
        (ConnectPeerEndpoint env w peer).2.1).2.2.trace).length
      ≤ (applyCalls w.trace).length + 1 ∧
    (∀ (w0 : World) (p : vL3NsePeer), p.state = PeerStateConnErr →
      ConnectPeerEndpoint env2 w0 p = (none, p, w0)) := by
  have hne : (ConnectPeerEndpoint env w peer).2.1.state ≠ PeerStateNotConn := by
    rcases ConnectPeerEndpoint_state env w peer with h | h
    · exact absurd hs h.1
    · rcases h.2 with h2 | h2 <;> rw [h2] <;> decide
  have h2 := ConnectPeerEndpoint_of_ne env2 (ConnectPeerEndpoint env w peer).2.2 _ hne
  refine ⟨hne, h2, ?_, ?_, ?_⟩
  · rw [h2, ConnectPeerEndpoint_connectCalls]
    simp [hs]
  · rw [h2, ConnectPeerEndpoint_applyCalls]
    by_cases hc : (connectOutcome env w peer).2 = none <;> simp [hs, hc]
  · intro w0 p hp
    exact ConnectPeerEndpoint_of_ne env2 w0 p (by rw [hp]; decide)

/-- C7: partial success is captured. From NotConnected, when the connect step
returns a handle and no error and the dataplane step then fails with `e`,
`drive()` returns `e` and leaves the record in ConnectionError with `e` as its
error and the returned handle as its handle. -/
theorem partial_success_is_captured (env : Collaborators) (w : World) (peer : vL3NsePeer)
    (hdl : Connection) (e : String) (hs : peer.state = PeerStateNotConn)
    (hc : connectOutcome env w peer = (some hdl, none))
    (ha : env.processClientDP
        (w.trace ++ [Event.lockRegistry, Event.unlockRegistry,
          Event.connectToEndpoint (connectArgsOf peer [w.vxc.ipamCidr])])
        { ServiceName := "", Ifname := peer.endpointName, Connection := some hdl } = some e) :
    (ConnectPeerEndpoint env w peer).1 = some e ∧
    (ConnectPeerEndpoint env w peer).2.1.state = PeerStateConnErr ∧
    (ConnectPeerEndpoint env w peer).2.1.connErr = some e ∧
    (ConnectPeerEndpoint env w peer).2.1.connHdl = some hdl ∧
    (ConnectPeerEndpoint env w peer).2.1.connHdl ≠ none := by
  have hc2 : (connectOutcome env w peer).2 = none := by rw [hc]
  have ha2 : applyOutcome env w peer = some e := by
    unfold applyOutcome applyRequestOf
    rw [hc]
    exact ha
  rw [ConnectPeerEndpoint_apply_fails env w peer hs hc2 (by rw [ha2]; simp)]
  simp [ha2, hc]

/-- C8: a connect failure is recorded and stops the attempt. From NotConnected,
when the connect step returns the error `e`, `drive()` returns `e`, leaves the
record in ConnectionError with `e` as its error and no handle, and hands
nothing to the dataplane. -/
theorem connect_failure_is_recorded (env : Collaborators) (w : World) (peer : vL3NsePeer)
    (e : String) (hs : peer.state = PeerStateNotConn)
    (hc : (connectOutcome env w peer).2 = some e) :
    (ConnectPeerEndpoint env w peer).1 = some e ∧
    (ConnectPeerEndpoint env w peer).2.1.state = PeerStateConnErr ∧
    (ConnectPeerEndpoint env w peer).2.1.connErr = some e ∧
    (ConnectPeerEndpoint env w peer).2.1.connHdl = none ∧
    applyCalls (ConnectPeerEndpoint env w peer).2.2.trace = applyCalls w.trace ∧
    (ConnectPeerEndpoint env w peer).2.2.trace =
      w.trace ++ [Event.lockRegistry, Event.unlockRegistry,
        Event.connectToEndpoint (connectArgsOf peer [w.vxc.ipamCidr])] := by
  have hap := ConnectPeerEndpoint_applyCalls env w peer
  rw [ConnectPeerEndpoint_connect_fails env w peer hs (by rw [hc]; simp)] at hap ⊢
  simp [hc] at hap ⊢
  exact hap

/-- C9: the successful outbound drive. From NotConnected, when connect returns
`hdl` without error and the dataplane step returns no error, `drive()` does
exactly this, in this order: reads Self Identity under the registry lock,
sends one connect request addressed by the record's site, name and manager,
with the record's name as interface name and `[ipamCidr]` as routes, then one
dataplane request carrying `hdl` and keyed by the record's name. It returns
nil and the record is Connected, holds `hdl`, and has no error. -/
theorem successful_outbound_drive (env : Collaborators) (w : World) (peer : vL3NsePeer)
    (hdl : Option Connection) (hs : peer.state = PeerStateNotConn)
    (hc : connectOutcome env w peer = (hdl, none))
    (ha : applyOutcome env w peer = none) :
    (ConnectPeerEndpoint env w peer).2.2.trace =
      w.trace ++
        [Event.lockRegistry, Event.unlockRegistry,
         Event.connectToEndpoint
           { remoteIp := peer.remoteIp
             endpointName := peer.endpointName
             networkServiceManagerName := peer.networkServiceManagerName
             ifName := peer.endpointName
             mechanism := memifMECHANISM
             description := "VPP interface " ++ peer.endpointName
             routes := [w.vxc.ipamCidr] },
         Event.processClientDP
           { ServiceName := "", Ifname := peer.endpointName, Connection := hdl }] ∧
    (connectCalls (ConnectPeerEndpoint env w peer).2.2.trace).length
      = (connectCalls w.trace).length + 1 ∧
    (applyCalls (ConnectPeerEndpoint env w peer).2.2.trace).length
      = (applyCalls w.trace).length + 1 ∧
    (ConnectPeerEndpoint env w peer).1 = none ∧
    (ConnectPeerEndpoint env w peer).2.1 =
      { peer with state := PeerStateConn, connHdl := hdl, connErr := none } := by
  have hc2 : (connectOutcome env w peer).2 = none := by rw [hc]
  have hcc := ConnectPeerEndpoint_connectCalls env w peer
  have hap := ConnectPeerEndpoint_applyCalls env w peer
  rw [hcc, hap]
  rw [ConnectPeerEndpoint_succeeds env w peer hs hc2 ha]
  simp [hc, hs, connectArgsOf, applyRequestOf]

/-! ## Well-formed registries -/

theorem WellFormed_of_peers_eq (w w2 : World) (h : w2.vxc.vl3NsePeers = w.vxc.vl3NsePeers)
    (hw : WellFormed w) : WellFormed w2 := by
  unfold WellFormed at *
  rw [h]
  exact hw

theorem WellFormed_peer (w : World) (n : String) (p : vL3NsePeer) (hw : WellFormed w)
    (h : w.peer n = some p) : p.endpointName = n :=
  hw.2 (n, p) (mapGet_mem _ _ _ h)

theorem WellFormed_storePeer (w : World) (n : String) (p p0 : vL3NsePeer) (hw : WellFormed w)
    (h0 : w.peer n = some p0) (hp : p.endpointName = n) : WellFormed (w.storePeer n p) := by
  have h0' : mapGet w.vxc.vl3NsePeers n = some p0 := h0
  refine ⟨?_, ?_⟩
  · rw [storePeer_peers, mapKeys_mapSet_of_some _ _ _ _ h0']
    exact hw.1
  · intro kv hkv
    rcases mem_mapSet _ _ _ _ hkv with h | h
    · rw [h]; exact hp
    · exact hw.2 kv h

theorem WellFormed_addPeer (w : World) (n m s : String) (hw : WellFormed w) :
    WellFormed (addPeer w n m s).2 ∧ (addPeer w n m s).1.endpointName = n := by
  cases h0 : w.peer n with
  | none =>
    refine ⟨⟨addPeer_nodup w n m s hw.1, ?_⟩, ?_⟩
    · rw [addPeer_of_none w n m s h0]
      intro kv hkv
      rcases mem_mapSet _ _ _ _ hkv with h | h
      · rw [h]
      · exact hw.2 kv h
    · rw [addPeer_of_none w n m s h0]
  | some p =>
    rw [addPeer_of_some w n m s p h0]
    exact ⟨WellFormed_of_peers_eq w _ rfl hw, WellFormed_peer w n p hw h0⟩

/-! ## The locked drive: lemmas -/

theorem driveLocked_peers (env : Collaborators) (w : World) (n : String) (p : vL3NsePeer) :
    (driveLocked env w n p).vxc.vl3NsePeers =
      mapSet w.vxc.vl3NsePeers n
        (ConnectPeerEndpoint env (w.emit (Event.lockPeer n)) p).2.1 := by
  simp [driveLocked, ConnectPeerEndpoint_peers]

theorem driveLocked_peer_self (env : Collaborators) (w : World) (n : String) (p : vL3NsePeer) :
    (driveLocked env w n p).peer n =
      some (ConnectPeerEndpoint env (w.emit (Event.lockPeer n)) p).2.1 := by
  simp [driveLocked]

theorem driveLocked_peer_of_ne (env : Collaborators) (w : World) (n n2 : String)
    (p : vL3NsePeer) (h : n2 ≠ n) : (driveLocked env w n p).peer n2 = w.peer n2 := by
  simp only [World.peer, driveLocked_peers, mapGet_mapSet_of_ne _ _ _ _ h]

theorem driveLocked_myEndpointName (env : Collaborators) (w : World) (n : String)
    (p : vL3NsePeer) : (driveLocked env w n p).vxc.myEndpointName = w.vxc.myEndpointName := by
  simp [driveLocked, ConnectPeerEndpoint_myEndpointName]

theorem driveLocked_ipamCidr (env : Collaborators) (w : World) (n : String)
    (p : vL3NsePeer) : (driveLocked env w n p).vxc.ipamCidr = w.vxc.ipamCidr := by
  simp [driveLocked, ConnectPeerEndpoint_ipamCidr]

theorem driveLocked_connectCalls (env : Collaborators) (w : World) (n : String)
    (p : vL3NsePeer) :
    connectCalls (driveLocked env w n p).trace =
      connectCalls w.trace ++
        (if p.state = PeerStateNotConn then [connectArgsOf p [w.vxc.ipamCidr]] else []) := by
  simp [driveLocked, connectCalls_append, ConnectPeerEndpoint_connectCalls, connectCalls]

theorem driveLocked_applyCalls (env : Collaborators) (w : World) (n : String)
    (p : vL3NsePeer) :
    ∃ reqs : List ProcessDataPlaneReq,
      applyCalls (driveLocked env w n p).trace = applyCalls w.trace ++ reqs ∧
      (p.state ≠ PeerStateNotConn → reqs = []) ∧
      ∀ r ∈ reqs, r.Ifname = p.endpointName := by
  refine ⟨if p.state = PeerStateNotConn ∧
      (connectOutcome env (w.emit (Event.lockPeer n)) p).2 = none then
        [applyRequestOf p (connectOutcome env (w.emit (Event.lockPeer n)) p).1] else [],
    ?_, ?_, ?_⟩
  · simp [driveLocked, applyCalls_append, ConnectPeerEndpoint_applyCalls, applyCalls]
  · intro h; simp [h]
  · intro r hr
    split at hr
    · simp at hr; rw [hr]; rfl
    · simp at hr

theorem driveLocked_WellFormed (env : Collaborators) (w : World) (n : String)
    (p : vL3NsePeer) (hw : WellFormed w) (h : w.peer n = some p) :
    WellFormed (driveLocked env w n p) := by
  have hp : (ConnectPeerEndpoint env (w.emit (Event.lockPeer n)) p).2.1.endpointName = n := by
    rw [ConnectPeerEndpoint_endpointName]; exact WellFormed_peer w n p hw h
  have := WellFormed_storePeer w n _ p hw h hp
  exact WellFormed_of_peers_eq _ _ (by rw [driveLocked_peers]; rfl) this

theorem driveLocked_keys (env : Collaborators) (w : World) (n : String)
    (p : vL3NsePeer) (h : w.peer n = some p) :
    mapKeys (driveLocked env w n p).vxc.vl3NsePeers = mapKeys w.vxc.vl3NsePeers := by
  rw [driveLocked_peers]
  exact mapKeys_mapSet_of_some _ _ _ _ h

/-! ## The inbound peer request: lemmas -/

theorem processPeerRequest_peer_self (env : Collaborators) (w : World) (n : String)
    (request : NetworkServiceRequest) :
    (processPeerRequest env w n request).2.2.peer n =
      some { (addPeer w n request.Connection.SourceNetworkServiceManagerName "").1 with
        excludedPrefixes := removeDuplicates
          ((addPeer w n request.Connection.SourceNetworkServiceManagerName "").1.excludedPrefixes
            ++ request.Connection.Context.IpContext.ExcludedPrefixes)
        connHdl := some (processPeerRequest env w n request).2.1.Connection
        state := PeerStateConnRx } := by
  simp [processPeerRequest, addPeer_ipamCidr]

theorem processPeerRequest_peer_of_ne (env : Collaborators) (w : World) (n n2 : String)
    (request : NetworkServiceRequest) (h : n2 ≠ n) :
    (processPeerRequest env w n request).2.2.peer n2 = w.peer n2 := by
  simp [processPeerRequest, storePeer_peer_of_ne _ _ _ _ h, addPeer_peer_of_ne _ _ _ _ _ h]

theorem processPeerRequest_trace (env : Collaborators) (w : World) (n : String)
    (request : NetworkServiceRequest) :
    (processPeerRequest env w n request).2.2.trace =
      w.trace ++ [Event.lockRegistry, Event.unlockRegistry, Event.lockPeer n,
        Event.unlockPeer n] := by
  simp [processPeerRequest, addPeer_trace]

theorem processPeerRequest_myEndpointName (env : Collaborators) (w : World) (n : String)
    (request : NetworkServiceRequest) :
    (processPeerRequest env w n request).2.2.vxc.myEndpointName = w.vxc.myEndpointName := by
  simp [processPeerRequest, addPeer_myEndpointName]

theorem processPeerRequest_WellFormed (env : Collaborators) (w : World) (n : String)
    (request : NetworkServiceRequest) (hw : WellFormed w) :
    WellFormed (processPeerRequest env w n request).2.2 := by
  have ha := WellFormed_addPeer w n request.Connection.SourceNetworkServiceManagerName "" hw
  have hs := addPeer_peer_self w n request.Connection.SourceNetworkServiceManagerName ""
  have hw1 : WellFormed ((addPeer w n request.Connection.SourceNetworkServiceManagerName "").2.emit
      (Event.lockPeer n)) := WellFormed_of_peers_eq _ _ rfl ha.1
  simp only [processPeerRequest]
  refine WellFormed_of_peers_eq _ _ rfl (WellFormed_storePeer _ n _ _ hw1 hs ?_)
  exact ha.2

/-- C4: applying the same excluded-prefix list twice is idempotent. The merge
`removeDuplicates (P ++ L)` applied again with the same `L` gives the same
list, `removeDuplicates` is idempotent, and two inbound peer requests from one
sender carrying the same excluded prefixes leave the sender's record with the
prefix list it had after the first, which is also the list mirrored onto the
second request. -/
theorem excluded_prefix_merge_is_idempotent (env : Collaborators) (w : World) (n : String)
    (request1 request2 : NetworkServiceRequest)
    (hL : request2.Connection.Context.IpContext.ExcludedPrefixes =
      request1.Connection.Context.IpContext.ExcludedPrefixes) :
    (∀ P L : List String,
      removeDuplicates (removeDuplicates (P ++ L) ++ L) = removeDuplicates (P ++ L)) ∧
    (∀ xs : List String, removeDuplicates (removeDuplicates xs) = removeDuplicates xs) ∧
    (∃ p1 p2 : vL3NsePeer,
      (processPeerRequest env w n request1).2.2.peer n = some p1 ∧
      (processPeerRequest env (processPeerRequest env w n request1).2.2 n request2).2.2.peer n
        = some p2 ∧
      p2.excludedPrefixes = p1.excludedPrefixes ∧
      (processPeerRequest env (processPeerRequest env w n request1).2.2 n
        request2).2.1.Connection.Context.IpContext.ExcludedPrefixes = p1.excludedPrefixes) := by
  refine ⟨removeDuplicates_append_again, ?_, ?_⟩
  · intro xs
    have := removeDuplicates_append_again xs []
    simpa using this
  · have h1 := processPeerRequest_peer_self env w n request1
    have h2 := processPeerRequest_peer_self env (processPeerRequest env w n request1).2.2 n request2
    refine ⟨_, _, h1, h2, ?_, ?_⟩
    · have ha := addPeer_of_some (processPeerRequest env w n request1).2.2 n
        request2.Connection.SourceNetworkServiceManagerName "" _ h1
      simp only [ha, hL]
      exact removeDuplicates_append_again _ _
    · have ha := addPeer_of_some (processPeerRequest env w n request1).2.2 n
        request2.Connection.SourceNetworkServiceManagerName "" _ h1
      simp only [processPeerRequest] at ha ⊢
      simp only [ha, hL]
      exact removeDuplicates_append_again _ _

/-! ## Self Identity: lemmas -/

theorem SetMyNseName_of_set (env : Collaborators) (w : World) (request : NetworkServiceRequest)
    (h : w.vxc.myEndpointName ≠ "") :
    SetMyNseName env w request = (w.emit Event.lockRegistry).emit Event.unlockRegistry := by
  simp [SetMyNseName, h]

theorem SetMyNseName_peers (env : Collaborators) (w : World) (request : NetworkServiceRequest) :
    (SetMyNseName env w request).vxc.vl3NsePeers = w.vxc.vl3NsePeers := by
  unfold SetMyNseName
  simp only [emit_vxc]
  split
  · split <;> rfl
  · rfl

theorem SetMyNseName_trace (env : Collaborators) (w : World) (request : NetworkServiceRequest) :
    (SetMyNseName env w request).trace =
      w.trace ++ [Event.lockRegistry, Event.unlockRegistry] := by
  unfold SetMyNseName
  simp only [emit_vxc, emit_trace]
  split
  · split <;> simp
  · simp

theorem discover_vxc (env : Collaborators) (w : World) (name remoteIp : String) :
    (discover env w name remoteIp).vxc = w.vxc := by
  unfold discover
  dsimp only
  split <;> rfl

theorem discoverRemotes_vxc (env : Collaborators) (remotes : List String) :
    ∀ (reqName : String) (w : World), (discoverRemotes env remotes reqName w).vxc = w.vxc := by
  induction remotes with
  | nil => intro _ _; rfl
  | cons r t ih =>
    intro reqName w
    simp only [discoverRemotes]
    rw [ih, discover_vxc]

theorem processNsEndpoint_myEndpointName (env : Collaborators) (remoteIp : String)
    (ep : NetworkServiceEndpoint) (w : World) :
    (processNsEndpoint env remoteIp ep w).vxc.myEndpointName = w.vxc.myEndpointName := by
  unfold processNsEndpoint
  dsimp only
  split
  · simp [driveLocked_myEndpointName, addPeer_myEndpointName, GetMyNseName]
  · rfl

theorem processNsEndpointsLoop_myEndpointName (env : Collaborators) (remoteIp : String)
    (eps : List NetworkServiceEndpoint) :
    ∀ w : World, (processNsEndpointsLoop env remoteIp eps w).vxc.myEndpointName
      = w.vxc.myEndpointName := by
  induction eps with
  | nil => intro _; rfl
  | cons ep t ih =>
    intro w
    simp only [processNsEndpointsLoop]
    rw [ih, processNsEndpoint_myEndpointName]

theorem drivePeer_myEndpointName (env : Collaborators) (w : World) (n : String) :
    (drivePeer env w n).vxc.myEndpointName = w.vxc.myEndpointName := by
  unfold drivePeer
  split
  · rfl
  · exact driveLocked_myEndpointName env w n _

theorem clientRequest_myEndpointName_of_set (env : Collaborators) (w : World)
    (request : NetworkServiceRequest) (h : w.vxc.myEndpointName ≠ "") :
    (clientRequest env w request).2.vxc.myEndpointName = w.vxc.myEndpointName := by
  unfold clientRequest
  dsimp only
  split <;> simp [SetMyNseName_of_set env w _ h, discoverRemotes_vxc, discover_vxc]

theorem Request_myEndpointName_of_set (env : Collaborators) (w : World)
    (request : NetworkServiceRequest) (h : w.vxc.myEndpointName ≠ "") :
    (Request env w request).2.2.vxc.myEndpointName = w.vxc.myEndpointName := by
  unfold Request
  cases hl : mapGet request.Connection.Labels LabelNseSource with
  | some src =>
    cases env.next <;> simp [processPeerRequest_myEndpointName]
  | none =>
    cases env.next <;> simp [clientRequest_myEndpointName_of_set env w request h]

theorem step_myEndpointName_of_set (env : Collaborators) (w : World) (op : Op)
    (h : w.vxc.myEndpointName ≠ "") :
    (step env w op).vxc.myEndpointName = w.vxc.myEndpointName := by
  cases op with
  | addPeer n m s => exact addPeer_myEndpointName w n m s
  | SetMyNseName request => simp [step, SetMyNseName_of_set env w request h]
  | GetMyNseName => rfl
  | processPeerRequest n request => exact processPeerRequest_myEndpointName env w n request
  | drive n => exact drivePeer_myEndpointName env w n
  | processNsEndpoints response remoteIp =>
    exact processNsEndpointsLoop_myEndpointName env remoteIp _ w
  | Request request => exact Request_myEndpointName_of_set env w request h

theorem run_myEndpointName_of_set (env : Collaborators) (ops : List Op) :
    ∀ w : World, w.vxc.myEndpointName ≠ "" →
      (run env w ops).vxc.myEndpointName = w.vxc.myEndpointName := by
  induction ops with
  | nil => intro _ _; rfl
  | cons op t ih =>
    intro w h
    have hs := step_myEndpointName_of_set env w op h
    have e : run env w (op :: t) = run env (step env w op) t := rfl
    rw [e, ih _ (by rw [hs]; exact h), hs]

/-- C2: Self Identity is write-once. Once it is non-empty, `SetMyNseName`
leaves it as it is, whatever name the request carries and whatever the
fallback resolver would return, and so does every sequence of operations
(`addPeer`, `SetMyNseName`, `GetMyNseName`, inbound peer requests, `drive()`,
mesh formation, client requests): `GetMyNseName` returns the same value
afterwards. `addPeer`, `GetMyNseName`, the peer path, `drive()` and mesh
formation never change it, set or not. -/
theorem self_identity_is_write_once (env : Collaborators) (w : World)
    (hset : w.vxc.myEndpointName ≠ "") :
    (∀ request, (SetMyNseName env w request).vxc.myEndpointName = w.vxc.myEndpointName) ∧
    (∀ ops, (run env w ops).vxc.myEndpointName = w.vxc.myEndpointName ∧
      (GetMyNseName (run env w ops)).1 = w.vxc.myEndpointName) ∧
    (∀ w0 : World,
      (∀ n m s, (addPeer w0 n m s).2.vxc.myEndpointName = w0.vxc.myEndpointName) ∧
      (GetMyNseName w0).2.vxc.myEndpointName = w0.vxc.myEndpointName ∧
      (∀ n request,
        (processPeerRequest env w0 n request).2.2.vxc.myEndpointName
          = w0.vxc.myEndpointName) ∧
      (∀ p, (ConnectPeerEndpoint env w0 p).2.2.vxc.myEndpointName = w0.vxc.myEndpointName) ∧
      (∀ n, (drivePeer env w0 n).vxc.myEndpointName = w0.vxc.myEndpointName) ∧
      (∀ response remoteIp,
        (processNsEndpoints env w0 response remoteIp).2.vxc.myEndpointName
          = w0.vxc.myEndpointName)) := by
  refine ⟨?_, ?_, ?_⟩
  · intro request
    rw [SetMyNseName_of_set env w request hset]
    rfl
  · intro ops
    exact ⟨run_myEndpointName_of_set env ops w hset, run_myEndpointName_of_set env ops w hset⟩
  · intro w0
    exact ⟨addPeer_myEndpointName w0, rfl, processPeerRequest_myEndpointName env w0,
      ConnectPeerEndpoint_myEndpointName env w0, drivePeer_myEndpointName env w0,
      fun response remoteIp => processNsEndpointsLoop_myEndpointName env remoteIp _ w0⟩

/-! ## Mesh formation from a settled registry -/

theorem processNsEndpoint_of_self (env : Collaborators) (remoteIp : String)
    (ep : NetworkServiceEndpoint) (w : World) (h : ep.Name = w.vxc.myEndpointName) :
    processNsEndpoint env remoteIp ep w
      = (w.emit Event.lockRegistry).emit Event.unlockRegistry := by
  simp [processNsEndpoint, GetMyNseName, h]

theorem processNsEndpoint_of_ne (env : Collaborators) (remoteIp : String)
    (ep : NetworkServiceEndpoint) (w : World) (h : ep.Name ≠ w.vxc.myEndpointName) :
    processNsEndpoint env remoteIp ep w =
      driveLocked env
        (addPeer ((w.emit Event.lockRegistry).emit Event.unlockRegistry) ep.Name
          ep.NetworkServiceManagerName remoteIp).2
        ep.Name
        (addPeer ((w.emit Event.lockRegistry).emit Event.unlockRegistry) ep.Name
          ep.NetworkServiceManagerName remoteIp).1 := by
  simp [processNsEndpoint, GetMyNseName, h]

theorem processNsEndpoint_Settled (env : Collaborators) (remoteIp : String)
    (ep : NetworkServiceEndpoint) (w : World) (hs : Settled w) :
    Settled (processNsEndpoint env remoteIp ep w) ∧
    ∀ k, k ∈ mapKeys (processNsEndpoint env remoteIp ep w).vxc.vl3NsePeers ↔
      k ∈ mapKeys w.vxc.vl3NsePeers ∨ (k = ep.Name ∧ ep.Name ≠ w.vxc.myEndpointName) := by
  by_cases hme : ep.Name = w.vxc.myEndpointName
  · rw [processNsEndpoint_of_self env remoteIp ep w hme]
    refine ⟨⟨WellFormed_of_peers_eq w _ rfl hs.1, fun n p h => hs.2 n p h⟩, ?_⟩
    intro k
    simp [hme]
  · rw [processNsEndpoint_of_ne env remoteIp ep w hme]
    have hw0 : WellFormed ((w.emit Event.lockRegistry).emit Event.unlockRegistry) :=
      WellFormed_of_peers_eq w _ rfl hs.1
    have ha := WellFormed_addPeer _ ep.Name ep.NetworkServiceManagerName remoteIp hw0
    have hself := addPeer_peer_self ((w.emit Event.lockRegistry).emit Event.unlockRegistry)
      ep.Name ep.NetworkServiceManagerName remoteIp
    refine ⟨⟨driveLocked_WellFormed env _ _ _ ha.1 hself, ?_⟩, ?_⟩
    · intro n p hp
      by_cases hn : n = ep.Name
      · subst hn
        rw [driveLocked_peer_self] at hp
        cases hp
        rcases ConnectPeerEndpoint_state env
          ((addPeer ((w.emit Event.lockRegistry).emit Event.unlockRegistry) ep.Name
            ep.NetworkServiceManagerName remoteIp).2.emit (Event.lockPeer ep.Name))
          (addPeer ((w.emit Event.lockRegistry).emit Event.unlockRegistry) ep.Name
            ep.NetworkServiceManagerName remoteIp).1 with h | h
        · rw [h.2]
          cases h0 : w.peer ep.Name with
          | none =>
            have := h.1
            rw [addPeer_of_none _ ep.Name _ _ (by simpa using h0)] at this
            exact absurd rfl this
          | some q =>
            rw [addPeer_of_some _ ep.Name _ _ q (by simpa using h0)]
            exact hs.2 ep.Name q h0
        · exact h.2
      · rw [driveLocked_peer_of_ne _ _ _ _ _ hn, addPeer_peer_of_ne _ _ _ _ _ hn] at hp
        exact hs.2 n p hp
    · intro k
      rw [driveLocked_keys _ _ _ _ hself, addPeer_keys]
      simp [hme]

theorem processNsEndpointsLoop_Settled (env : Collaborators) (remoteIp : String)
    (eps : List NetworkServiceEndpoint) :
    ∀ w : World, Settled w →
      Settled (processNsEndpointsLoop env remoteIp eps w) ∧
      ∀ k, k ∈ mapKeys (processNsEndpointsLoop env remoteIp eps w).vxc.vl3NsePeers ↔
        k ∈ mapKeys w.vxc.vl3NsePeers ∨
          (k ∈ eps.map (fun ep => ep.Name) ∧ k ≠ w.vxc.myEndpointName) := by
  induction eps with
  | nil =>
    intro w hs
    exact ⟨hs, fun k => by simp [processNsEndpointsLoop]⟩
  | cons ep t ih =>
    intro w hs
    have h1 := processNsEndpoint_Settled env remoteIp ep w hs
    have h2 := ih _ h1.1
    have hme := processNsEndpoint_myEndpointName env remoteIp ep w
    simp only [processNsEndpointsLoop]
    refine ⟨h2.1, ?_⟩
    intro k
    rw [h2.2 k, h1.2 k, hme]
    simp only [List.map_cons, List.mem_cons]
    constructor
    · rintro ((h | ⟨h, h'⟩) | ⟨h, h'⟩)
      · exact Or.inl h
      · exact Or.inr ⟨Or.inl h, h ▸ h'⟩
      · exact Or.inr ⟨Or.inr h, h'⟩
    · rintro (h | ⟨h | h, h'⟩)
      · exact Or.inl (Or.inl h)
      · exact Or.inl (Or.inr ⟨h, h ▸ h'⟩)
      · exact Or.inr ⟨h, h'⟩

/-- C10: mesh formation from an empty registry. Whatever the discovery result,
Self Identity and the collaborators' answers, after `processNsEndpoints` the
map has no key twice, its keys are exactly the discovered names different
from Self Identity (so Self Identity has no record), every record carries the
name it is stored under, and every record is Connected or in ConnectionError,
none NotConnected. -/
theorem mesh_formation_from_empty_registry (env : Collaborators) (w : World)
    (response : Option FindNetworkServiceResponse) (remoteIp : String)
    (hempty : w.vxc.vl3NsePeers = []) :
    (mapKeys (processNsEndpoints env w response remoteIp).2.vxc.vl3NsePeers).Nodup ∧
    (∀ n, n ∈ mapKeys (processNsEndpoints env w response remoteIp).2.vxc.vl3NsePeers ↔
      n ∈ (GetNetworkServiceEndpoints response).map (fun ep => ep.Name) ∧
        n ≠ w.vxc.myEndpointName) ∧
    (processNsEndpoints env w response remoteIp).2.peer w.vxc.myEndpointName = none ∧
    (∀ n p, (processNsEndpoints env w response remoteIp).2.peer n = some p →
      p.endpointName = n ∧ p.state ≠ PeerStateNotConn ∧
      (p.state = PeerStateConn ∨ p.state = PeerStateConnErr)) := by
  have hs : Settled w := by
    refine ⟨⟨by simp [hempty, mapKeys], by simp [hempty]⟩, ?_⟩
    intro n p hp
    simp [World.peer, hempty, mapGet] at hp
  have h := processNsEndpointsLoop_Settled env remoteIp (GetNetworkServiceEndpoints response) w hs
  have hk : ∀ n, n ∈ mapKeys (processNsEndpoints env w response remoteIp).2.vxc.vl3NsePeers ↔
      n ∈ (GetNetworkServiceEndpoints response).map (fun ep => ep.Name) ∧
        n ≠ w.vxc.myEndpointName := by
    intro n
    have := h.2 n
    simp only [hempty, mapKeys, List.map_nil, List.not_mem_nil, false_or] at this
    exact this
  refine ⟨h.1.1.1, hk, ?_, ?_⟩
  · apply (mapGet_eq_none_iff _ _).2
    intro hc
    exact ((hk _).1 hc).2 rfl
  · intro n p hp
    have hst := h.1.2 n p hp
    refine ⟨WellFormed_peer _ n p h.1.1 hp, ?_, hst⟩
    rcases hst with h1 | h1 <;> rw [h1] <;> decide

/-! ## A peer that connected first -/

theorem connectCallsTo_append (X : String) (a b : List Event) :
    connectCallsTo X (a ++ b) = connectCallsTo X a ++ connectCallsTo X b := by
  simp [connectCallsTo, connectCalls_append]

theorem applyCallsTo_append (X : String) (a b : List Event) :
    applyCallsTo X (a ++ b) = applyCallsTo X a ++ applyCallsTo X b := by
  simp [applyCallsTo, applyCalls_append]

theorem Quiet_refl (w : World) : Quiet w w := ⟨rfl, rfl, rfl⟩

theorem Quiet_trans (a b c : World) (h1 : Quiet a b) (h2 : Quiet b c) : Quiet a c :=
  ⟨h2.1.trans h1.1, h2.2.1.trans h1.2.1, h2.2.2.trans h1.2.2⟩

theorem Quiet_of_locks (w w2 : World) (hp : w2.vxc.vl3NsePeers = w.vxc.vl3NsePeers)
    (evs : List Event) (ht : w2.trace = w.trace ++ evs) (hc : connectCalls evs = [])
    (ha : applyCalls evs = []) : Quiet w w2 := by
  refine ⟨hp, ?_, ?_⟩
  · rw [ht, connectCalls_append, hc, List.append_nil]
  · rw [ht, applyCalls_append, ha, List.append_nil]

theorem Quiet_SetMyNseName (env : Collaborators) (w : World) (request : NetworkServiceRequest) :
    Quiet w (SetMyNseName env w request) :=
  Quiet_of_locks w _ (SetMyNseName_peers env w request) _ (SetMyNseName_trace env w request)
    rfl rfl

theorem Quiet_discover (env : Collaborators) (w : World) (name remoteIp : String) :
    Quiet w (discover env w name remoteIp) := by
  unfold discover
  dsimp only
  split
  · exact Quiet_of_locks w _ rfl [Event.findNetworkService name] rfl rfl rfl
  · exact Quiet_of_locks w _ rfl
      [Event.findNetworkService name,
        Event.goProcessNsEndpoints (env.findNetworkService w.trace name).1 remoteIp]
      (by simp) rfl rfl

theorem Quiet_discoverRemotes (env : Collaborators) (remotes : List String) :
    ∀ (reqName : String) (w : World), Quiet w (discoverRemotes env remotes reqName w) := by
  induction remotes with
  | nil => intro _ w; exact Quiet_refl w
  | cons r t ih =>
    intro reqName w
    simp only [discoverRemotes]
    exact Quiet_trans _ _ _ (Quiet_discover env w _ r) (ih _ _)

theorem ConnectedViaIncoming_of_peers_eq (X : String) (w w2 : World)
    (h : w2.vxc.vl3NsePeers = w.vxc.vl3NsePeers) (hc : ConnectedViaIncoming X w) :
    ConnectedViaIncoming X w2 := by
  refine ⟨WellFormed_of_peers_eq w w2 h hc.1, ?_⟩
  obtain ⟨p, hp, hs⟩ := hc.2
  exact ⟨p, by simpa [World.peer, h] using hp, hs⟩

theorem NotDialled_refl (X : String) (w : World) (hc : ConnectedViaIncoming X w) :
    NotDialled X w w := ⟨hc, rfl, rfl⟩

theorem NotDialled_trans (X : String) (a b c : World) (h1 : NotDialled X a b)
    (h2 : NotDialled X b c) : NotDialled X a c :=
  ⟨h2.1, h2.2.1.trans h1.2.1, h2.2.2.trans h1.2.2⟩

theorem NotDialled_of_Quiet (X : String) (w w2 : World) (hc : ConnectedViaIncoming X w)
    (hq : Quiet w w2) : NotDialled X w w2 := by
  refine ⟨ConnectedViaIncoming_of_peers_eq X w w2 hq.1 hc, ?_, ?_⟩
  · simp [connectCallsTo, hq.2.1]
  · simp [applyCallsTo, hq.2.2]

theorem NotDialled_addPeer (X : String) (w : World) (n m s : String)
    (hc : ConnectedViaIncoming X w) : NotDialled X w (addPeer w n m s).2 := by
  obtain ⟨p, hp, hs⟩ := hc.2
  refine ⟨⟨(WellFormed_addPeer w n m s hc.1).1, p, ?_, hs⟩, ?_, ?_⟩
  · by_cases hn : X = n
    · subst hn
      rw [addPeer_of_some w X m s p hp]
      simpa using hp
    · rw [addPeer_peer_of_ne w n m s X hn]; exact hp
  · rw [addPeer_trace, connectCallsTo_append]; simp [connectCallsTo, connectCalls]
  · rw [addPeer_trace, applyCallsTo_append]; simp [applyCallsTo, applyCalls]

theorem NotDialled_driveLocked (env : Collaborators) (X : String) (w : World) (n : String)
    (q : vL3NsePeer) (hc : ConnectedViaIncoming X w) (hq : w.peer n = some q) :
    NotDialled X w (driveLocked env w n q) := by
  obtain ⟨p, hp, hs⟩ := hc.2
  have hqn : q.endpointName = n := WellFormed_peer w n q hc.1 hq
  by_cases hn : n = X
  · subst hn
    have hqp : q = p := by rw [hp] at hq; cases hq; rfl
    subst hqp
    have hne : q.state ≠ PeerStateNotConn := by rw [hs]; decide
    refine ⟨⟨driveLocked_WellFormed env w n q hc.1 hq, q, ?_, hs⟩, ?_, ?_⟩
    · rw [driveLocked_peer_self, ConnectPeerEndpoint_of_ne env _ q hne]
    · simp [connectCallsTo, driveLocked_connectCalls, hne]
    · obtain ⟨reqs, hr, hnil, _⟩ := driveLocked_applyCalls env w n q
      simp [applyCallsTo, hr, hnil hne]
  · have hnX : X ≠ n := fun e => hn e.symm
    refine ⟨⟨driveLocked_WellFormed env w n q hc.1 hq, p, ?_, hs⟩, ?_, ?_⟩
    · rw [driveLocked_peer_of_ne env w n X q hnX]; exact hp
    · simp only [connectCallsTo, driveLocked_connectCalls, List.filter_append]
      have : (List.filter (fun a => decide (a.endpointName = X))
          (if q.state = PeerStateNotConn then [connectArgsOf q [w.vxc.ipamCidr]] else [])) = [] := by
        split
        · simp [connectArgsOf, hqn, hn]
        · rfl
      rw [this, List.append_nil]
    · obtain ⟨reqs, hr, _, hif⟩ := driveLocked_applyCalls env w n q
      simp only [applyCallsTo, hr, List.filter_append]
      have : List.filter (fun r => decide (r.Ifname = X)) reqs = [] := by
        rw [List.filter_eq_nil_iff]
        intro r hr'
        simp [hif r hr', hqn, hn]
      rw [this, List.append_nil]

theorem processPeerRequest_ConnectedViaIncoming (env : Collaborators) (w : World) (X : String)
    (request : NetworkServiceRequest) (hw : WellFormed w) :
    ConnectedViaIncoming X (processPeerRequest env w X request).2.2 :=
  ⟨processPeerRequest_WellFormed env w X request hw, _,
    processPeerRequest_peer_self env w X request, rfl⟩

theorem NotDialled_processPeerRequest (env : Collaborators) (X : String) (w : World)
    (n : String) (request : NetworkServiceRequest) (hc : ConnectedViaIncoming X w) :
    NotDialled X w (processPeerRequest env w n request).2.2 := by
  have htr := processPeerRequest_trace env w n request
  refine ⟨?_, ?_, ?_⟩
  · by_cases hn : X = n
    · subst hn
      exact processPeerRequest_ConnectedViaIncoming env w X request hc.1
    · obtain ⟨p, hp, hs⟩ := hc.2
      exact ⟨processPeerRequest_WellFormed env w n request hc.1, p,
        by rw [processPeerRequest_peer_of_ne env w n X request hn]; exact hp, hs⟩
  · rw [htr, connectCallsTo_append]; simp [connectCallsTo, connectCalls]
  · rw [htr, applyCallsTo_append]; simp [applyCallsTo, applyCalls]

theorem NotDialled_processNsEndpoint (env : Collaborators) (X : String) (remoteIp : String)
    (ep : NetworkServiceEndpoint) (w : World) (hc : ConnectedViaIncoming X w) :
    NotDialled X w (processNsEndpoint env remoteIp ep w) := by
  have hq0 : Quiet w ((w.emit Event.lockRegistry).emit Event.unlockRegistry) :=
    Quiet_of_locks w _ rfl [Event.lockRegistry, Event.unlockRegistry] (by simp) rfl rfl
  have h0 := NotDialled_of_Quiet X w _ hc hq0
  by_cases hme : ep.Name = w.vxc.myEndpointName
  · rw [processNsEndpoint_of_self env remoteIp ep w hme]
    exact h0
  · rw [processNsEndpoint_of_ne env remoteIp ep w hme]
    have h1 := NotDialled_addPeer X _ ep.Name ep.NetworkServiceManagerName remoteIp h0.1
    have h2 := NotDialled_driveLocked env X _ ep.Name _ h1.1
      (addPeer_peer_self _ ep.Name ep.NetworkServiceManagerName remoteIp)
    exact NotDialled_trans X _ _ _ h0 (NotDialled_trans X _ _ _ h1 h2)

theorem NotDialled_processNsEndpointsLoop (env : Collaborators) (X : String)
    (remoteIp : String) (eps : List NetworkServiceEndpoint) :
    ∀ w : World, ConnectedViaIncoming X w →
      NotDialled X w (processNsEndpointsLoop env remoteIp eps w) := by
  induction eps with
  | nil => intro w hc; exact NotDialled_refl X w hc
  | cons ep t ih =>
    intro w hc
    have h1 := NotDialled_processNsEndpoint env X remoteIp ep w hc
    simp only [processNsEndpointsLoop]
    exact NotDialled_trans X _ _ _ h1 (ih _ h1.1)

theorem NotDialled_drivePeer (env : Collaborators) (X : String) (w : World) (n : String)
    (hc : ConnectedViaIncoming X w) : NotDialled X w (drivePeer env w n) := by
  unfold drivePeer
  cases h : mapGet w.vxc.vl3NsePeers n with
  | none => exact NotDialled_refl X w hc
  | some q => exact NotDialled_driveLocked env X w n q hc h

theorem Quiet_discoveries (env : Collaborators) (w w1 : World) (hq : Quiet w w1)
    (reqName : String) :
    Quiet w
      (discoverRemotes env (discover env w1 reqName "").vxc.remoteNsIpList reqName
        { discover env w1 reqName "" with
          vxc := { (discover env w1 reqName "").vxc with outgoingNscName := reqName } }) := by
  have h1 : Quiet w (discover env w1 reqName "") :=
    Quiet_trans _ _ _ hq (Quiet_discover env w1 reqName "")
  have h2 : Quiet (discover env w1 reqName "")
      { discover env w1 reqName "" with
        vxc := { (discover env w1 reqName "").vxc with outgoingNscName := reqName } } :=
    ⟨rfl, rfl, rfl⟩
  exact Quiet_trans _ _ _ (Quiet_trans _ _ _ h1 h2) (Quiet_discoverRemotes env _ _ _)

theorem Quiet_clientRequest (env : Collaborators) (w : World)
    (request : NetworkServiceRequest) : Quiet w (clientRequest env w request).2 := by
  unfold clientRequest
  dsimp only
  split
  · exact Quiet_SetMyNseName env w _
  · exact Quiet_discoveries env w _ (Quiet_SetMyNseName env w _) _

theorem NotDialled_Request (env : Collaborators) (X : String) (w : World)
    (request : NetworkServiceRequest) (hc : ConnectedViaIncoming X w) :
    NotDialled X w (Request env w request).2.2 := by
  have hnext : ∀ (w2 : World) (r : NetworkServiceRequest), NotDialled X w w2 →
      NotDialled X w (w2.emit (Event.nextRequest r)) := by
    intro w2 r h
    exact NotDialled_trans X _ _ _ h (NotDialled_of_Quiet X w2 _ h.1
      (Quiet_of_locks w2 _ rfl [Event.nextRequest r] rfl rfl rfl))
  unfold Request
  cases mapGet request.Connection.Labels LabelNseSource with
  | some src =>
    have hb := NotDialled_processPeerRequest env X w src request hc
    cases env.next with
    | none => exact hb
    | some f => exact hnext _ _ hb
  | none =>
    have hb := NotDialled_of_Quiet X w _ hc (Quiet_clientRequest env w request)
    cases env.next with
    | none => exact hb
    | some f => exact hnext _ _ hb

theorem NotDialled_step (env : Collaborators) (X : String) (w : World) (op : Op)
    (hc : ConnectedViaIncoming X w) : NotDialled X w (step env w op) := by
  cases op with
  | addPeer n m s => exact NotDialled_addPeer X w n m s hc
  | SetMyNseName request => exact NotDialled_of_Quiet X w _ hc (Quiet_SetMyNseName env w request)
  | GetMyNseName =>
    exact NotDialled_of_Quiet X w _ hc
      (Quiet_of_locks w _ rfl [Event.lockRegistry, Event.unlockRegistry]
        (by simp [step, GetMyNseName]) rfl rfl)
  | processPeerRequest n request => exact NotDialled_processPeerRequest env X w n request hc
  | drive n => exact NotDialled_drivePeer env X w n hc
  | processNsEndpoints response remoteIp =>
    exact NotDialled_processNsEndpointsLoop env X remoteIp _ w hc
  | Request request => exact NotDialled_Request env X w request hc

theorem NotDialled_run (env : Collaborators) (X : String) (ops : List Op) :
    ∀ w : World, ConnectedViaIncoming X w → NotDialled X w (run env w ops) := by
  induction ops with
  | nil => intro w hc; exact NotDialled_refl X w hc
  | cons op t ih =>
    intro w hc
    have h1 := NotDialled_step env X w op hc
    have e : run env w (op :: t) = run env (step env w op) t := rfl
    rw [e]
    exact NotDialled_trans X _ _ _ h1 (ih _ h1.1)

/-- C6: a peer that connected to us first is never dialled. In a well-formed
registry, once an inbound peer request from `X` has been processed, then after
any sequence of further operations and a mesh-formation run over any discovery
result with any site tag, the trace holds no connect request and no dataplane
request for `X` that was not there before the inbound request, and the record
of `X` is in ConnectedViaIncoming. -/
theorem inbound_peer_is_never_dialled (env : Collaborators) (w : World) (X : String)
    (request : NetworkServiceRequest) (ops : List Op)
    (response : Option FindNetworkServiceResponse) (remoteIp : String) (hw : WellFormed w) :
    connectCallsTo X
        (processNsEndpoints env (run env (processPeerRequest env w X request).2.2 ops)
          response remoteIp).2.trace = connectCallsTo X w.trace ∧
    applyCallsTo X
        (processNsEndpoints env (run env (processPeerRequest env w X request).2.2 ops)
          response remoteIp).2.trace = applyCallsTo X w.trace ∧
    ∃ p, (processNsEndpoints env (run env (processPeerRequest env w X request).2.2 ops)
          response remoteIp).2.peer X = some p ∧ p.state = PeerStateConnRx := by
  have h1 := processPeerRequest_ConnectedViaIncoming env w X request hw
  have h2 := NotDialled_run env X ops _ h1
  have h3 := NotDialled_processNsEndpointsLoop env X remoteIp
    (GetNetworkServiceEndpoints response) _ h2.1
  have h := NotDialled_trans X _ _ _ h2 h3
  have htr := processPeerRequest_trace env w X request
  refine ⟨?_, ?_, h.1.2⟩
  · have := h.2.1
    rw [htr, connectCallsTo_append] at this
    simpa [connectCallsTo, connectCalls, processNsEndpoints] using this
  · have := h.2.2
    rw [htr, applyCallsTo_append] at this
    simpa [applyCallsTo, applyCalls, processNsEndpoints] using this

/-! ## Every registry the endpoint builds is well-formed -/

theorem WellFormed_processNsEndpoint (env : Collaborators) (remoteIp : String)
    (ep : NetworkServiceEndpoint) (w : World) (hw : WellFormed w) :
    WellFormed (processNsEndpoint env remoteIp ep w) := by
  have hw0 : WellFormed ((w.emit Event.lockRegistry).emit Event.unlockRegistry) :=
    WellFormed_of_peers_eq w _ rfl hw
  by_cases hme : ep.Name = w.vxc.myEndpointName
  · rw [processNsEndpoint_of_self env remoteIp ep w hme]
    exact hw0
  · rw [processNsEndpoint_of_ne env remoteIp ep w hme]
    exact driveLocked_WellFormed env _ _ _
      (WellFormed_addPeer _ ep.Name ep.NetworkServiceManagerName remoteIp hw0).1
      (addPeer_peer_self _ ep.Name ep.NetworkServiceManagerName remoteIp)

theorem WellFormed_processNsEndpointsLoop (env : Collaborators) (remoteIp : String)
    (eps : List NetworkServiceEndpoint) :
    ∀ w : World, WellFormed w → WellFormed (processNsEndpointsLoop env remoteIp eps w) := by
  induction eps with
  | nil => intro w hw; exact hw
  | cons ep t ih =>
    intro w hw
    simp only [processNsEndpointsLoop]
    exact ih _ (WellFormed_processNsEndpoint env remoteIp ep w hw)

theorem WellFormed_step (env : Collaborators) (w : World) (op : Op) (hw : WellFormed w) :
    WellFormed (step env w op) := by
  cases op with
  | addPeer n m s => exact (WellFormed_addPeer w n m s hw).1
  | SetMyNseName request => exact WellFormed_of_peers_eq w _ (SetMyNseName_peers env w request) hw
  | GetMyNseName => exact WellFormed_of_peers_eq w _ rfl hw
  | processPeerRequest n request => exact processPeerRequest_WellFormed env w n request hw
  | drive n =>
    simp only [step, drivePeer]
    cases h : mapGet w.vxc.vl3NsePeers n with
    | none => exact hw
    | some q => exact driveLocked_WellFormed env w n q hw h
  | processNsEndpoints response remoteIp =>
    exact WellFormed_processNsEndpointsLoop env remoteIp _ w hw
  | Request request =>
    simp only [step, Request]
    cases mapGet request.Connection.Labels LabelNseSource with
    | some src =>
      have hb := processPeerRequest_WellFormed env w src request hw
      cases env.next with
      | none => exact hb
      | some f => exact WellFormed_of_peers_eq _ _ rfl hb
    | none =>
      have hb := WellFormed_of_peers_eq w _ (Quiet_clientRequest env w request).1 hw
      cases env.next with
      | none => exact hb
      | some f => exact WellFormed_of_peers_eq _ _ rfl hb

/-- Every registry reached from a new endpoint by any sequence of operations is
well-formed: no key twice, every record named as its key. -/
theorem WellFormed_run (env : Collaborators) (ops : List Op) :
    ∀ w : World, WellFormed w → WellFormed (run env w ops) := by
  induction ops with
  | nil => intro w hw; exact hw
  | cons op t ih =>
    intro w hw
    have e : run env w (op :: t) = run env (step env w op) t := rfl
    rw [e]
    exact ih _ (WellFormed_step env w op hw)

theorem WellFormed_new (nsConfigIPAddress ipamCidr : String) (remoteIpList : List String)
    (nsDiscoveryClientIsNil : Bool) :
    WellFormed (newVL3ConnectComposite nsConfigIPAddress ipamCidr remoteIpList
      nsDiscoveryClientIsNil) :=
  ⟨List.nodup_nil, fun _ h => absurd h (List.not_mem_nil _)⟩

/-! ## The claims at sample inputs -/

/-- C1 at a fresh endpoint: two `addPeer` calls for `A` with different arguments
leave the record of the first call. -/
theorem addPeer_idempotent_first_call_wins_witness :
    (mapKeys freshEndpoint.vxc.vl3NsePeers).Nodup ∧
    (addPeerCalls freshEndpoint "A" [("nsm-a", ""), ("nsm-b", "site-b")]).peer "A" =
      some { endpointName := "A", networkServiceManagerName := "nsm-a",
             state := PeerStateNotConn, connHdl := none, connErr := none,
             excludedPrefixes := [], remoteIp := "" } :=
  ⟨by decide,
   (addPeer_idempotent_first_call_wins freshEndpoint "A" "nsm-a" "" [("nsm-b", "site-b")]
      (by decide)).2.1 (by decide)⟩

/-- C2 at an endpoint named `Self`: a request carrying another endpoint name
leaves Self Identity as `Self`. -/
theorem self_identity_is_write_once_witness :
    namedEndpoint.vxc.myEndpointName ≠ "" ∧
    (SetMyNseName succeeding namedEndpoint peerRequestFromX).vxc.myEndpointName = "Self" :=
  ⟨by decide, (self_identity_is_write_once succeeding namedEndpoint (by decide)).1 _⟩

/-- C4 at two equal inbound requests from `X`. -/
theorem excluded_prefix_merge_is_idempotent_witness :
    peerRequestFromX.Connection.Context.IpContext.ExcludedPrefixes =
      peerRequestFromX.Connection.Context.IpContext.ExcludedPrefixes ∧
    ∀ xs : List String, removeDuplicates (removeDuplicates xs) = removeDuplicates xs :=
  ⟨rfl,
   (excluded_prefix_merge_is_idempotent succeeding freshEndpoint "X" peerRequestFromX
      peerRequestFromX rfl).2.1⟩

/-- C5 at a fresh record whose dataplane step fails. -/
theorem drive_twice_dials_at_most_once_witness :
    samplePeer.state = PeerStateNotConn ∧
    (ConnectPeerEndpoint applyFailing freshEndpoint samplePeer).2.1.state ≠ PeerStateNotConn :=
  ⟨rfl, (drive_twice_dials_at_most_once applyFailing succeeding freshEndpoint samplePeer rfl).1⟩

/-- C6 at a fresh endpoint: an inbound request from `X`, then a discovery hit
for `X`. -/
theorem inbound_peer_is_never_dialled_witness :
    WellFormed freshEndpoint ∧
    connectCallsTo "X"
        (processNsEndpoints succeeding
          (run succeeding (processPeerRequest succeeding freshEndpoint "X" peerRequestFromX).2.2 [])
          discoveredX "").2.trace = connectCallsTo "X" freshEndpoint.trace :=
  ⟨⟨List.nodup_nil, fun _ h => absurd h (List.not_mem_nil _)⟩,
   (inbound_peer_is_never_dialled succeeding freshEndpoint "X" peerRequestFromX [] discoveredX ""
      ⟨List.nodup_nil, fun _ h => absurd h (List.not_mem_nil _)⟩).1⟩

/-- C7 at a fresh record: connect returns the sample handle, the dataplane step
fails. -/
theorem partial_success_is_captured_witness :
    samplePeer.state = PeerStateNotConn ∧
    (ConnectPeerEndpoint applyFailing freshEndpoint samplePeer).2.1.state = PeerStateConnErr ∧
    (ConnectPeerEndpoint applyFailing freshEndpoint samplePeer).2.1.connErr
      = some "dataplane error" ∧
    (ConnectPeerEndpoint applyFailing freshEndpoint samplePeer).2.1.connHdl = some sampleHandle :=
  ⟨rfl,
   (partial_success_is_captured applyFailing freshEndpoint samplePeer sampleHandle
      "dataplane error" rfl rfl rfl).2.1,
   (partial_success_is_captured applyFailing freshEndpoint samplePeer sampleHandle
      "dataplane error" rfl rfl rfl).2.2.1,
   (partial_success_is_captured applyFailing freshEndpoint samplePeer sampleHandle
      "dataplane error" rfl rfl rfl).2.2.2.1⟩

/-- C8 at a fresh record whose connect step is refused. -/
theorem connect_failure_is_recorded_witness :
    samplePeer.state = PeerStateNotConn ∧
    (ConnectPeerEndpoint connectFailing freshEndpoint samplePeer).1
      = some "connection refused" ∧
    (ConnectPeerEndpoint connectFailing freshEndpoint samplePeer).2.1.state = PeerStateConnErr :=
  ⟨rfl,
   (connect_failure_is_recorded connectFailing freshEndpoint samplePeer "connection refused"
      rfl rfl).1,
   (connect_failure_is_recorded connectFailing freshEndpoint samplePeer "connection refused"
      rfl rfl).2.1⟩

/-- C9 at a fresh record with both collaborators succeeding. -/
theorem successful_outbound_drive_witness :
    samplePeer.state = PeerStateNotConn ∧
    (ConnectPeerEndpoint succeeding freshEndpoint samplePeer).2.1 =
      { samplePeer with
        state := PeerStateConn, connHdl := some sampleHandle, connErr := none } :=
  ⟨rfl,
   (successful_outbound_drive succeeding freshEndpoint samplePeer (some sampleHandle)
      rfl rfl rfl).2.2.2.2⟩

/-- C10 at an endpoint named `Self` with discovery result `A`, `B`, `Self`. -/
theorem mesh_formation_from_empty_registry_witness :
    namedEndpoint.vxc.vl3NsePeers = [] ∧
    (mapKeys (processNsEndpoints applyFailing namedEndpoint discoveredABSelf
      "").2.vxc.vl3NsePeers).Nodup ∧
    (processNsEndpoints applyFailing namedEndpoint discoveredABSelf "").2.peer "Self" = none :=
  ⟨rfl,
   (mesh_formation_from_empty_registry applyFailing namedEndpoint discoveredABSelf "" rfl).1,
   (mesh_formation_from_empty_registry applyFailing namedEndpoint discoveredABSelf ""
      rfl).2.2.1⟩

/-- The scenario of C10 evaluated: discovery returns `A`, `B` and `Self`, and
afterwards the map holds the two records `A` and `B`, both in ConnectionError
when the dataplane step fails. -/
theorem mesh_formation_A_B_Self :
    mapKeys (processNsEndpoints applyFailing namedEndpoint discoveredABSelf "").2.vxc.vl3NsePeers
      = ["A", "B"] ∧
    ((processNsEndpoints applyFailing namedEndpoint discoveredABSelf "").2.vxc.vl3NsePeers.map
      (fun kv => kv.2.state)) = [PeerStateConnErr, PeerStateConnErr] ∧
    mapKeys (processNsEndpoints succeeding namedEndpoint discoveredABSelf "").2.vxc.vl3NsePeers
      = ["A", "B"] ∧
    ((processNsEndpoints succeeding namedEndpoint discoveredABSelf "").2.vxc.vl3NsePeers.map
      (fun kv => kv.2.state)) = [PeerStateConn, PeerStateConn] := by
  decide

/-- The scenario of C6 evaluated: after the inbound request from `X`, a
discovery hit for `X` sends no connect request and leaves `X` in
ConnectedViaIncoming with the merged prefix list. -/
theorem inbound_X_then_discovery_hit :
    connectCalls (processNsEndpoints succeeding
        (processPeerRequest succeeding freshEndpoint "X" peerRequestFromX).2.2
        discoveredX "").2.trace = [] ∧
    ((processNsEndpoints succeeding
        (processPeerRequest succeeding freshEndpoint "X" peerRequestFromX).2.2
        discoveredX "").2.peer "X").map (fun p => (p.state, p.excludedPrefixes))
      = some (PeerStateConnRx, ["10.0.0.0/8"]) := by
  decide

/-! ## Claims about the inbound dispatcher -/

/-- The prefixes of the record under a name, none when there is no record. -/
theorem addPeer_fst_excludedPrefixes (w : World) (n m s : String) :
    (addPeer w n m s).1.excludedPrefixes =
      (match w.peer n with
        | some p => p.excludedPrefixes
        | none => []) := by
  cases h : w.peer n with
  | none => rw [addPeer_of_none w n m s h]
  | some p => rw [addPeer_of_some w n m s p h]

/-- C11: the inbound peer request transition. Whatever the prior state of the
sender's record (absent or in any of the five states), `processPeerRequest`
returns nil and leaves the record in ConnectedViaIncoming with the request's
connection as its handle and the merged list `removeDuplicates (old ++
incoming)` as its prefixes; the request's excluded prefixes are that same
merged list, and its destination routes are the old ones, unchanged and in
order, followed by one route whose prefix is `ipamCidr`. -/
theorem inbound_peer_request_transition (env : Collaborators) (w : World) (X : String)
    (request : NetworkServiceRequest) :
    (processPeerRequest env w X request).1 = none ∧
    (∃ p, (processPeerRequest env w X request).2.2.peer X = some p ∧
      p.state = PeerStateConnRx ∧
      p.connHdl = some (processPeerRequest env w X request).2.1.Connection ∧
      p.excludedPrefixes =
        removeDuplicates
          ((match w.peer X with
            | some old => old.excludedPrefixes
            | none => []) ++ request.Connection.Context.IpContext.ExcludedPrefixes)) ∧
    (processPeerRequest env w X request).2.1.Connection.Context.IpContext.ExcludedPrefixes =
      removeDuplicates
        ((match w.peer X with
          | some old => old.excludedPrefixes
          | none => []) ++ request.Connection.Context.IpContext.ExcludedPrefixes) ∧
    (processPeerRequest env w X request).2.1.Connection.Context.IpContext.DstRoutes =
      request.Connection.Context.IpContext.DstRoutes ++ [{ Prefix := w.vxc.ipamCidr }] := by
  have hex := addPeer_fst_excludedPrefixes w X request.Connection.SourceNetworkServiceManagerName ""
  refine ⟨rfl, ⟨_, processPeerRequest_peer_self env w X request, rfl, rfl, ?_⟩, ?_, ?_⟩
  · simp only [hex]
  · simp only [processPeerRequest, hex]
  · simp [processPeerRequest, addPeer_ipamCidr]

/-! ## Discovery: lemmas -/

theorem findCalls_append (a b : List Event) :
    findCalls (a ++ b) = findCalls a ++ findCalls b := by
  induction a with
  | nil => rfl
  | cons e t ih => cases e <;> simp [findCalls, ih]

theorem findCalls_scopeEvents (result : Option FindNetworkServiceResponse × Option String)
    (name site : String) : findCalls (scopeEvents result name site) = [name] := by
  unfold scopeEvents
  split <;> simp [findCalls]

theorem findCalls_scopesEvents (env : Collaborators) (scopes : List (String × String)) :
    ∀ tr, findCalls (scopesEvents env tr scopes) = scopes.map Prod.fst := by
  induction scopes with
  | nil => intro _; rfl
  | cons sc t ih =>
    intro tr
    obtain ⟨name, site⟩ := sc
    simp [scopesEvents, findCalls_append, findCalls_scopeEvents, ih]

theorem discover_trace (env : Collaborators) (w : World) (name site : String) :
    (discover env w name site).trace =
      w.trace ++ scopeEvents (env.findNetworkService w.trace name) name site := by
  unfold discover scopeEvents
  dsimp only
  by_cases h : (env.findNetworkService w.trace name).2 = none <;> simp [h]

theorem discoverRemotes_trace (env : Collaborators) (sites : List String) :
    ∀ (reqName : String) (w : World),
      (discoverRemotes env sites reqName w).trace =
        w.trace ++ scopesEvents env w.trace ((remoteQueryNames reqName sites).zip sites) := by
  induction sites with
  | nil => intro _ w; simp [discoverRemotes, remoteQueryNames, scopesEvents]
  | cons r t ih =>
    intro reqName w
    simp only [discoverRemotes, remoteQueryNames, List.zip_cons_cons, scopesEvents]
    rw [ih, discover_trace, List.append_assoc]
    rfl

theorem remoteQueryNames_length (sites : List String) :
    ∀ reqName, (remoteQueryNames reqName sites).length = sites.length := by
  induction sites with
  | nil => intro _; rfl
  | cons r t ih => intro reqName; simp [remoteQueryNames, ih]

theorem SetMyNseName_nsDiscoveryClientIsNil (env : Collaborators) (w : World)
    (request : NetworkServiceRequest) :
    (SetMyNseName env w request).vxc.nsDiscoveryClientIsNil = w.vxc.nsDiscoveryClientIsNil := by
  unfold SetMyNseName
  simp only [emit_vxc]
  split
  · split <;> rfl
  · rfl

theorem SetMyNseName_remoteNsIpList (env : Collaborators) (w : World)
    (request : NetworkServiceRequest) :
    (SetMyNseName env w request).vxc.remoteNsIpList = w.vxc.remoteNsIpList := by
  unfold SetMyNseName
  simp only [emit_vxc]
  split
  · split <;> rfl
  · rfl

/-- The request the client path hands on: the request with one route, to
`nsConfig.IPAddress`, appended. -/
theorem clientRequest_fst (env : Collaborators) (w : World) (request : NetworkServiceRequest) :
    (clientRequest env w request).1 =
      { request with Connection := { request.Connection with
          Context := { IpContext := { request.Connection.Context.IpContext with
            DstRoutes := request.Connection.Context.IpContext.DstRoutes ++
              [{ Prefix := w.vxc.nsConfigIPAddress }] } } } } := by
  unfold clientRequest
  dsimp only
  split <;> rfl

/-- The trace of the client path with a discovery client: Self Identity is
resolved under the registry lock, then the local scope and each remote site
are queried in turn. -/
theorem clientRequest_trace (env : Collaborators) (w : World) (request : NetworkServiceRequest)
    (hclient : w.vxc.nsDiscoveryClientIsNil = false) :
    (clientRequest env w request).2.trace =
      w.trace ++ [Event.lockRegistry, Event.unlockRegistry] ++
        scopesEvents env (w.trace ++ [Event.lockRegistry, Event.unlockRegistry])
          ((request.Connection.NetworkService, "") ::
            (remoteQueryNames request.Connection.NetworkService w.vxc.remoteNsIpList).zip
              w.vxc.remoteNsIpList) := by
  unfold clientRequest
  dsimp only
  rw [if_neg (by rw [SetMyNseName_nsDiscoveryClientIsNil, hclient]; simp)]
  dsimp only
  rw [discoverRemotes_trace]
  simp only [discover_vxc, SetMyNseName_remoteNsIpList, discover_trace, SetMyNseName_trace,
    scopesEvents, List.append_assoc]

theorem Request_of_client (env : Collaborators) (w : World) (request : NetworkServiceRequest)
    (hlabel : mapGet request.Connection.Labels LabelNseSource = none) :
    Request env w request =
      (match env.next with
        | some nextStage =>
          (nextStage (clientRequest env w request).2.trace (clientRequest env w request).1,
            (clientRequest env w request).1,
            (clientRequest env w request).2.emit
              (Event.nextRequest (clientRequest env w request).1))
        | none =>
          ((some (clientRequest env w request).1.Connection, none),
            (clientRequest env w request).1, (clientRequest env w request).2)) := by
  unfold Request
  rw [hlabel]

/-- What the loop of `Request` asks the discovery client, for any list of
sites: the local query, then for the i-th site the service name followed by
all of the first i sites, each after an `@`. -/
theorem Request_findCalls (env : Collaborators) (w : World) (request : NetworkServiceRequest)
    (hlabel : mapGet request.Connection.Labels LabelNseSource = none)
    (hclient : w.vxc.nsDiscoveryClientIsNil = false) :
    findCalls (Request env w request).2.2.trace =
      findCalls w.trace ++
        request.Connection.NetworkService ::
          remoteQueryNames request.Connection.NetworkService w.vxc.remoteNsIpList := by
  have hz : ((remoteQueryNames request.Connection.NetworkService w.vxc.remoteNsIpList).zip
      w.vxc.remoteNsIpList).map Prod.fst =
      remoteQueryNames request.Connection.NetworkService w.vxc.remoteNsIpList :=
    List.map_fst_zip _ _ (by rw [remoteQueryNames_length])
  have hc : findCalls (clientRequest env w request).2.trace =
      findCalls w.trace ++
        request.Connection.NetworkService ::
          remoteQueryNames request.Connection.NetworkService w.vxc.remoteNsIpList := by
    rw [clientRequest_trace env w request hclient, findCalls_append, findCalls_append,
      findCalls_scopesEvents, List.map_cons, hz]
    simp [findCalls]
  rw [Request_of_client env w request hlabel]
  cases env.next with
  | none => exact hc
  | some f =>
    simp only [emit_trace, findCalls_append, hc]
    simp [findCalls]

/-- C12 at two remote sites `site-b`, `site-c` and service `vl3`: the query for
the second site is `vl3@site-b@site-c`, not `vl3@site-c`. -/
theorem second_remote_query_compounds_sites :
    findCalls (Request succeeding twoSiteEndpoint clientRequestVl3).2.2.trace
      = ["vl3", "vl3@site-b", "vl3@site-b@site-c"] ∧
    (findCalls (Request succeeding twoSiteEndpoint clientRequestVl3).2.2.trace).get? 2
      ≠ some ("vl3" ++ "@" ++ "site-c") ∧
    (spawnedTasks (Request succeeding twoSiteEndpoint clientRequestVl3).2.2.trace).map Prod.snd
      = ["", "site-b", "site-c"] := by
  decide

/-- C13: discovery failures are isolated per scope. On the client path with a
discovery client, whatever each query returns, the trace added by `Request` is
the resolution of Self Identity followed by the scopes handled one by one
(`scopesEvents`): the local scope with the empty site tag, then one scope per
configured site tagged with that site, each queried once and given a
formation task with its response exactly when its own query succeeded. The
number of queries is always one plus the number of sites. The request handed
on and, with no next stage, the connection and nil error returned, are the
same under any other collaborators, and with a next stage the result is that
stage's answer to the same request, so no discovery error reaches the caller. -/
theorem discovery_failures_are_isolated (env : Collaborators) (w : World)
    (request : NetworkServiceRequest)
    (hlabel : mapGet request.Connection.Labels LabelNseSource = none)
    (hclient : w.vxc.nsDiscoveryClientIsNil = false) :
    (Request env w request).2.2.trace =
      w.trace ++ [Event.lockRegistry, Event.unlockRegistry] ++
        scopesEvents env (w.trace ++ [Event.lockRegistry, Event.unlockRegistry])
          ((request.Connection.NetworkService, "") ::
            (remoteQueryNames request.Connection.NetworkService w.vxc.remoteNsIpList).zip
              w.vxc.remoteNsIpList) ++
        (if env.next.isSome then [Event.nextRequest (Request env w request).2.1] else []) ∧
    (((request.Connection.NetworkService, "") ::
        (remoteQueryNames request.Connection.NetworkService w.vxc.remoteNsIpList).zip
          w.vxc.remoteNsIpList).map Prod.snd = "" :: w.vxc.remoteNsIpList) ∧
    (findCalls (Request env w request).2.2.trace).length =
      (findCalls w.trace).length + (1 + w.vxc.remoteNsIpList.length) ∧
    (∀ env2 : Collaborators, (Request env2 w request).2.1 = (Request env w request).2.1) ∧
    (∀ env2 : Collaborators, env.next = none → env2.next = none →
      (Request env2 w request).1 = (Request env w request).1 ∧
      (Request env w request).1 = (some (Request env w request).2.1.Connection, none)) ∧
    (∀ nextStage, env.next = some nextStage →
      ∃ tr, (Request env w request).1 = nextStage tr (Request env w request).2.1) := by
  have hfc := Request_findCalls env w request hlabel hclient
  refine ⟨?_, ?_, ?_, ?_, ?_, ?_⟩
  · rw [Request_of_client env w request hlabel]
    cases env.next with
    | none => simp [clientRequest_trace env w request hclient]
    | some f => simp [clientRequest_trace env w request hclient]
  · rw [List.map_cons, List.map_snd_zip _ _ (by rw [remoteQueryNames_length])]
  · rw [hfc]
    simp [remoteQueryNames_length]
    omega
  · intro env2
    rw [Request_of_client env w request hlabel, Request_of_client env2 w request hlabel]
    cases env.next <;> cases env2.next <;> simp [clientRequest_fst]
  · intro env2 h1 h2
    rw [Request_of_client env w request hlabel, Request_of_client env2 w request hlabel, h1, h2]
    simp [clientRequest_fst]
  · intro f hf
    rw [Request_of_client env w request hlabel, hf]
    exact ⟨_, rfl⟩

/-- C13 at two sites when the query for `site-b` fails: all three queries are
still made, and formation tasks are started for the local registry and for
`site-c` only. -/
theorem discovery_failure_of_one_site :
    (findCalls (Request siteBUnreachable twoSiteEndpoint clientRequestVl3).2.2.trace).length = 3 ∧
    (spawnedTasks (Request siteBUnreachable twoSiteEndpoint clientRequestVl3).2.2.trace).map
      Prod.snd = ["", "site-c"] ∧
    (Request siteBUnreachable twoSiteEndpoint clientRequestVl3).1 =
      (Request succeeding twoSiteEndpoint clientRequestVl3).1 := by
  decide

/-- C13 at the two-site endpoint with a failing `site-b`. -/
theorem discovery_failures_are_isolated_witness :
    mapGet clientRequestVl3.Connection.Labels LabelNseSource = none ∧
    twoSiteEndpoint.vxc.nsDiscoveryClientIsNil = false ∧
    (findCalls (Request siteBUnreachable twoSiteEndpoint clientRequestVl3).2.2.trace).length =
      (findCalls twoSiteEndpoint.trace).length + (1 + twoSiteEndpoint.vxc.remoteNsIpList.length) :=
  ⟨by decide, rfl,
   (discovery_failures_are_isolated siteBUnreachable twoSiteEndpoint clientRequestVl3
      (by decide) rfl).2.2.1⟩

/-- C14, as the code has it: on the client path `Request` appends exactly one
destination route after the request's existing routes, which are kept
unchanged and in order, and leaves the rest of the request as it is; the
prefix of the route is `nsConfig.IPAddress`, the configured full vL3 CIDR, not
the field `ipamCidr` that the peer path and `drive()` use. -/
theorem client_path_route (env : Collaborators) (w : World) (request : NetworkServiceRequest)
    (hlabel : mapGet request.Connection.Labels LabelNseSource = none) :
    (Request env w request).2.1.Connection.Context.IpContext.DstRoutes =
      request.Connection.Context.IpContext.DstRoutes ++ [{ Prefix := w.vxc.nsConfigIPAddress }] ∧
    (Request env w request).2.1 =
      { request with Connection := { request.Connection with
          Context := { IpContext := { request.Connection.Context.IpContext with
            DstRoutes := request.Connection.Context.IpContext.DstRoutes ++
              [{ Prefix := w.vxc.nsConfigIPAddress }] } } } } := by
  rw [Request_of_client env w request hlabel]
  cases env.next <;> simp [clientRequest_fst]

/-- C14 at a fresh endpoint with `nsConfig.IPAddress` 10.60.0.0/16 and
`ipamCidr` 10.60.1.0/24. -/
theorem client_path_route_witness :
    mapGet clientRequestVl3.Connection.Labels LabelNseSource = none ∧
    (Request succeeding freshEndpoint clientRequestVl3).2.1.Connection.Context.IpContext.DstRoutes
      = [{ Prefix := "192.168.0.0/24" }, { Prefix := "10.60.0.0/16" }] :=
  ⟨by decide, (client_path_route succeeding freshEndpoint clientRequestVl3 (by decide)).1⟩

/-- C14 as stated fails: at a fresh endpoint whose `ipamCidr` is 10.60.1.0/24
and whose `nsConfig.IPAddress` is 10.60.0.0/16, the route appended for a
client is not the `ipamCidr` route. -/
theorem client_route_is_not_ipamCidr :
    mapGet clientRequestVl3.Connection.Labels LabelNseSource = none ∧
    (Request succeeding freshEndpoint clientRequestVl3).2.1.Connection.Context.IpContext.DstRoutes
      ≠ clientRequestVl3.Connection.Context.IpContext.DstRoutes ++
          [{ Prefix := freshEndpoint.vxc.ipamCidr }] := by
  decide

/-! ## Invariants of the records: lemmas -/

theorem AllPeers_of_peers_eq (P : vL3NsePeer → Prop) (w w2 : World)
    (h : w2.vxc.vl3NsePeers = w.vxc.vl3NsePeers) (ha : AllPeers P w) : AllPeers P w2 := by
  intro n p hp
  exact ha n p (by simpa [World.peer, h] using hp)

theorem AllPeers_of_empty (P : vL3NsePeer → Prop) (w : World) (h : w.vxc.vl3NsePeers = []) :
    AllPeers P w := by
  intro n p hp
  simp [World.peer, h, mapGet] at hp

theorem addPeer_fst_fresh_or (P : vL3NsePeer → Prop) (w : World) (n m s : String)
    (ha : AllPeers P w) : IsFresh (addPeer w n m s).1 ∨ P (addPeer w n m s).1 := by
  cases h : w.peer n with
  | none => rw [addPeer_of_none w n m s h]; exact Or.inl ⟨rfl, rfl⟩
  | some p => rw [addPeer_of_some w n m s p h]; exact Or.inr (ha n p h)

theorem AllPeers_addPeer (P : vL3NsePeer → Prop) (hf : ∀ p, IsFresh p → P p) (w : World)
    (n m s : String) (ha : AllPeers P w) : AllPeers P (addPeer w n m s).2 := by
  intro k p hp
  by_cases hk : k = n
  · subst hk
    rw [addPeer_peer_self] at hp
    cases hp
    rcases addPeer_fst_fresh_or P w k m s ha with h | h
    · exact hf _ h
    · exact h
  · rw [addPeer_peer_of_ne w n m s k hk] at hp
    exact ha k p hp

theorem AllPeers_processPeerRequest (P : vL3NsePeer → Prop)
    (hi : ∀ (p : vL3NsePeer) (excl : List String) (c : Connection),
      P { p with excludedPrefixes := excl, connHdl := some c, state := PeerStateConnRx })
    (env : Collaborators) (w : World) (n : String) (request : NetworkServiceRequest)
    (ha : AllPeers P w) : AllPeers P (processPeerRequest env w n request).2.2 := by
  intro k p hp
  by_cases hk : k = n
  · subst hk
    rw [processPeerRequest_peer_self] at hp
    cases hp
    exact hi _ _ _
  · rw [processPeerRequest_peer_of_ne env w n k request hk] at hp
    exact ha k p hp

theorem AllPeers_drive_after_addPeer (P : vL3NsePeer → Prop)
    (hd : ∀ (env : Collaborators) (w : World) (p : vL3NsePeer),
      IsFresh p ∨ P p → P (ConnectPeerEndpoint env w p).2.1)
    (env : Collaborators) (w : World) (n m s : String) (ha : AllPeers P w) :
    AllPeers P (driveLocked env (addPeer w n m s).2 n (addPeer w n m s).1) := by
  intro k p hp
  by_cases hk : k = n
  · subst hk
    rw [driveLocked_peer_self] at hp
    cases hp
    exact hd _ _ _ (addPeer_fst_fresh_or P w k m s ha)
  · rw [driveLocked_peer_of_ne _ _ _ _ _ hk, addPeer_peer_of_ne w n m s k hk] at hp
    exact ha k p hp

theorem AllPeers_processNsEndpoint (P : vL3NsePeer → Prop)
    (hd : ∀ (env : Collaborators) (w : World) (p : vL3NsePeer),
      IsFresh p ∨ P p → P (ConnectPeerEndpoint env w p).2.1)
    (env : Collaborators) (remoteIp : String) (ep : NetworkServiceEndpoint) (w : World)
    (ha : AllPeers P w) : AllPeers P (processNsEndpoint env remoteIp ep w) := by
  have h0 : AllPeers P ((w.emit Event.lockRegistry).emit Event.unlockRegistry) :=
    AllPeers_of_peers_eq P w _ rfl ha
  by_cases hme : ep.Name = w.vxc.myEndpointName
  · rw [processNsEndpoint_of_self env remoteIp ep w hme]; exact h0
  · rw [processNsEndpoint_of_ne env remoteIp ep w hme]
    exact AllPeers_drive_after_addPeer P hd env _ _ _ _ h0

theorem AllPeers_processNsEndpointsLoop (P : vL3NsePeer → Prop)
    (hd : ∀ (env : Collaborators) (w : World) (p : vL3NsePeer),
      IsFresh p ∨ P p → P (ConnectPeerEndpoint env w p).2.1)
    (env : Collaborators) (remoteIp : String) (eps : List NetworkServiceEndpoint) :
    ∀ w : World, AllPeers P w → AllPeers P (processNsEndpointsLoop env remoteIp eps w) := by
  induction eps with
  | nil => intro w ha; exact ha
  | cons ep t ih =>
    intro w ha
    simp only [processNsEndpointsLoop]
    exact ih _ (AllPeers_processNsEndpoint P hd env remoteIp ep w ha)

theorem AllPeers_Request (P : vL3NsePeer → Prop)
    (hi : ∀ (p : vL3NsePeer) (excl : List String) (c : Connection),
      P { p with excludedPrefixes := excl, connHdl := some c, state := PeerStateConnRx })
    (env : Collaborators) (w : World) (request : NetworkServiceRequest) (ha : AllPeers P w) :
    AllPeers P (Request env w request).2.2 := by
  unfold Request
  cases mapGet request.Connection.Labels LabelNseSource with
  | some src =>
    have hb := AllPeers_processPeerRequest P hi env w src request ha
    cases env.next with
    | none => exact hb
    | some f => exact AllPeers_of_peers_eq P _ _ rfl hb
  | none =>
    have hb := AllPeers_of_peers_eq P w _ (Quiet_clientRequest env w request).1 ha
    cases env.next with
    | none => exact hb
    | some f => exact AllPeers_of_peers_eq P _ _ rfl hb

/-- A property that `drive()` establishes from a fresh record and keeps, and
that an inbound request establishes, holds of every record after a complete
entry point. -/
theorem AllPeers_step_topLevel (P : vL3NsePeer → Prop)
    (hd : ∀ (env : Collaborators) (w : World) (p : vL3NsePeer),
      IsFresh p ∨ P p → P (ConnectPeerEndpoint env w p).2.1)
    (hi : ∀ (p : vL3NsePeer) (excl : List String) (c : Connection),
      P { p with excludedPrefixes := excl, connHdl := some c, state := PeerStateConnRx })
    (env : Collaborators) (w : World) (op : Op) (htop : op.isTopLevel = true)
    (ha : AllPeers P w) : AllPeers P (step env w op) := by
  cases op with
  | addPeer n m s => simp [Op.isTopLevel] at htop
  | SetMyNseName request => simp [Op.isTopLevel] at htop
  | GetMyNseName => simp [Op.isTopLevel] at htop
  | drive n => simp [Op.isTopLevel] at htop
  | processPeerRequest n request => exact AllPeers_processPeerRequest P hi env w n request ha
  | processNsEndpoints response remoteIp =>
    exact AllPeers_processNsEndpointsLoop P hd env remoteIp _ w ha
  | Request request => exact AllPeers_Request P hi env w request ha

/-- If moreover the property holds of a fresh record, it holds of every record
after any operation. -/
theorem AllPeers_step (P : vL3NsePeer → Prop) (hf : ∀ p, IsFresh p → P p)
    (hd : ∀ (env : Collaborators) (w : World) (p : vL3NsePeer),
      IsFresh p ∨ P p → P (ConnectPeerEndpoint env w p).2.1)
    (hi : ∀ (p : vL3NsePeer) (excl : List String) (c : Connection),
      P { p with excludedPrefixes := excl, connHdl := some c, state := PeerStateConnRx })
    (env : Collaborators) (w : World) (op : Op) (ha : AllPeers P w) :
    AllPeers P (step env w op) := by
  cases op with
  | addPeer n m s => exact AllPeers_addPeer P hf w n m s ha
  | SetMyNseName request =>
    exact AllPeers_of_peers_eq P w _ (SetMyNseName_peers env w request) ha
  | GetMyNseName => exact AllPeers_of_peers_eq P w _ rfl ha
  | drive n =>
    simp only [step, drivePeer]
    cases h : mapGet w.vxc.vl3NsePeers n with
    | none => exact ha
    | some q =>
      intro k p hp
      by_cases hk : k = n
      · subst hk
        rw [driveLocked_peer_self] at hp
        cases hp
        exact hd _ _ _ (Or.inr (ha k q h))
      · rw [driveLocked_peer_of_ne _ _ _ _ _ hk] at hp
        exact ha k p hp
  | processPeerRequest n request => exact AllPeers_processPeerRequest P hi env w n request ha
  | processNsEndpoints response remoteIp =>
    exact AllPeers_processNsEndpointsLoop P hd env remoteIp _ w ha
  | Request request => exact AllPeers_Request P hi env w request ha

theorem AllPeers_run (P : vL3NsePeer → Prop) (hf : ∀ p, IsFresh p → P p)
    (hd : ∀ (env : Collaborators) (w : World) (p : vL3NsePeer),
      IsFresh p ∨ P p → P (ConnectPeerEndpoint env w p).2.1)
    (hi : ∀ (p : vL3NsePeer) (excl : List String) (c : Connection),
      P { p with excludedPrefixes := excl, connHdl := some c, state := PeerStateConnRx })
    (env : Collaborators) (ops : List Op) :
    ∀ w : World, AllPeers P w → AllPeers P (run env w ops) := by
  induction ops with
  | nil => intro w ha; exact ha
  | cons op t ih =>
    intro w ha
    have e : run env w (op :: t) = run env (step env w op) t := rfl
    rw [e]
    exact ih _ (AllPeers_step P hf hd hi env w op ha)

theorem AllPeers_run_topLevel (P : vL3NsePeer → Prop)
    (hd : ∀ (env : Collaborators) (w : World) (p : vL3NsePeer),
      IsFresh p ∨ P p → P (ConnectPeerEndpoint env w p).2.1)
    (hi : ∀ (p : vL3NsePeer) (excl : List String) (c : Connection),
      P { p with excludedPrefixes := excl, connHdl := some c, state := PeerStateConnRx })
    (env : Collaborators) (ops : List Op) :
    ∀ w : World, (∀ op ∈ ops, op.isTopLevel = true) → AllPeers P w →
      AllPeers P (run env w ops) := by
  induction ops with
  | nil => intro w _ ha; exact ha
  | cons op t ih =>
    intro w htop ha
    have e : run env w (op :: t) = run env (step env w op) t := rfl
    rw [e]
    exact ih _ (fun o ho => htop o (List.mem_cons_of_mem _ ho))
      (AllPeers_step_topLevel P hd hi env w op (htop op (List.mem_cons_self _ _)) ha)

/-! ## Claims about state and stored error -/

theorem drive_keeps_error_rule (env : Collaborators) (w : World) (p : vL3NsePeer)
    (h : IsFresh p ∨
      (p.connErr ≠ none → p.state = PeerStateConnErr ∨ p.state = PeerStateConnRx)) :
    (ConnectPeerEndpoint env w p).2.1.connErr ≠ none →
      (ConnectPeerEndpoint env w p).2.1.state = PeerStateConnErr ∨
      (ConnectPeerEndpoint env w p).2.1.state = PeerStateConnRx := by
  rcases ConnectPeerEndpoint_cases env w p with hc | hc | hc | hc
  · rw [hc.2]
    rcases h with hfr | hp
    · exact absurd hfr.1 hc.1
    · exact hp
  · rw [hc.2.2]; intro _; exact Or.inl rfl
  · rw [hc.2.2.2]; intro _; exact Or.inl rfl
  · rw [hc.2.2.2]; intro hne; exact absurd rfl hne

/-- C15, as the code has it: in every registry reached from the empty one by
any sequence of operations, a record with a stored error is in
ConnectionError or in ConnectedViaIncoming. -/
theorem stored_error_only_after_failure (env : Collaborators) (w : World) (ops : List Op)
    (hempty : w.vxc.vl3NsePeers = []) :
    ∀ n p, (run env w ops).peer n = some p → p.connErr ≠ none →
      p.state = PeerStateConnErr ∨ p.state = PeerStateConnRx := by
  exact AllPeers_run
    (fun p => p.connErr ≠ none → p.state = PeerStateConnErr ∨ p.state = PeerStateConnRx)
    (fun p hp hne => absurd hp.2 hne)
    (fun env w p h => drive_keeps_error_rule env w p h)
    (fun _ _ _ _ => Or.inr rfl)
    env ops w (AllPeers_of_empty _ w hempty)

/-- C15 as stated fails: from a fresh endpoint, a mesh-formation run whose
connect to `X` is refused and then an inbound peer request from `X` leave the
record of `X` in ConnectedViaIncoming with the connect error still stored. -/
theorem stored_error_outside_ConnectionError :
    freshEndpoint.vxc.vl3NsePeers = [] ∧
    ((run connectFailing freshEndpoint
        [Op.processNsEndpoints discoveredX "", Op.processPeerRequest "X" peerRequestFromX]).peer
      "X").map (fun p => (p.connErr, p.state))
      = some (some "connection refused", PeerStateConnRx) := by
  decide

/-- C15 as amended, at that run. -/
theorem stored_error_only_after_failure_witness :
    freshEndpoint.vxc.vl3NsePeers = [] ∧
    ∀ n p, (run connectFailing freshEndpoint
        [Op.processNsEndpoints discoveredX "", Op.processPeerRequest "X" peerRequestFromX]).peer n
        = some p →
      p.connErr ≠ none → p.state = PeerStateConnErr ∨ p.state = PeerStateConnRx :=
  ⟨rfl, stored_error_only_after_failure connectFailing freshEndpoint _ rfl⟩

/-- What `drive()` does on any record in ConnectionInProgress, and what the
guard of `createPeerConnectionRequest` does there. -/
theorem ConnectPeerEndpoint_in_progress (env : Collaborators) (w : World) (p : vL3NsePeer)
    (routes : List String) (hs : p.state = PeerStateConnInProg) :
    ConnectPeerEndpoint env w p = (none, p, w) ∧
    createPeerConnectionRequest env w p routes = (p.connErr, p, w) := by
  refine ⟨ConnectPeerEndpoint_of_ne env w p (by rw [hs]; decide), ?_⟩
  simp [createPeerConnectionRequest, hs]

/-- The records in flight are those of the code: from a record that passes the
guard, `createPeerConnectionRequest` hands `inFlightAtConnect` to the connect
step, and when that returns no error the record is `inFlightAtApply` while the
dataplane step runs. -/
theorem createPeerConnectionRequest_in_flight (env : Collaborators) (w : World)
    (p : vL3NsePeer) (routes : List String) (hs : p.state = PeerStateNotConn) :
    (createPeerConnectionRequest env w p routes).2.2.trace =
      (if (performPeerConnectRequest env w (inFlightAtConnect p) routes).1.2 ≠ none then
        (performPeerConnectRequest env w (inFlightAtConnect p) routes).2.trace
      else
        (performPeerConnectRequest env w (inFlightAtConnect p) routes).2.trace ++
          [Event.processClientDP
            { ServiceName := ""
              Ifname := (inFlightAtApply p
                (performPeerConnectRequest env w (inFlightAtConnect p) routes).1.1).endpointName
              Connection := (inFlightAtApply p
                (performPeerConnectRequest env w (inFlightAtConnect p) routes).1.1).connHdl }]) ∧
    ((performPeerConnectRequest env w (inFlightAtConnect p) routes).1.2 = none →
      ({ inFlightAtConnect p with
          connHdl := (performPeerConnectRequest env w (inFlightAtConnect p) routes).1.1
          connErr := (performPeerConnectRequest env w (inFlightAtConnect p) routes).1.2 }
        : vL3NsePeer) =
        inFlightAtApply p (performPeerConnectRequest env w (inFlightAtConnect p) routes).1.1) := by
  constructor
  · by_cases hc : (performPeerConnectRequest env w (inFlightAtConnect p) routes).1.2 = none
    · have hc2 : (performPeerConnectRequest env w
          { p with state := PeerStateConnInProg } routes).1.2 = none := hc
      simp only [createPeerConnectionRequest, hs, reduceCtorEq, or_self, if_false, hc2, ne_eq,
        not_true_eq_false, hc]
      split <;> simp [inFlightAtApply, inFlightAtConnect]
    · have hc2 : ¬ (performPeerConnectRequest env w
          { p with state := PeerStateConnInProg } routes).1.2 = none := hc
      simp [createPeerConnectionRequest, hs, hc2, hc]
      rfl
  · intro hc
    simp [inFlightAtApply, hc]

theorem drive_keeps_state_error_agreement (env : Collaborators) (w : World) (p : vL3NsePeer)
    (h : IsFresh p ∨
      ((p.state = PeerStateConn → p.connErr = none) ∧
       (p.state = PeerStateConnErr → p.connErr ≠ none))) :
    ((ConnectPeerEndpoint env w p).2.1.state = PeerStateConn →
      (ConnectPeerEndpoint env w p).2.1.connErr = none) ∧
    ((ConnectPeerEndpoint env w p).2.1.state = PeerStateConnErr →
      (ConnectPeerEndpoint env w p).2.1.connErr ≠ none) := by
  rcases ConnectPeerEndpoint_cases env w p with hc | hc | hc | hc
  · rw [hc.2]
    rcases h with hfr | hp
    · exact absurd hfr.1 hc.1
    · exact hp
  · rw [hc.2.2]
    exact ⟨fun h => (by cases h), fun _ => hc.2.1⟩
  · rw [hc.2.2.2]
    exact ⟨fun h => (by cases h), fun _ => hc.2.2.1⟩
  · rw [hc.2.2.2]
    exact ⟨fun _ => rfl, fun h => by cases h⟩

/-- C19: state and stored error agree. In every registry reached from the
empty one by any sequence of operations, a record in Connected stores no
error and a record in ConnectionError stores one. -/
theorem state_and_stored_error_agree (env : Collaborators) (w : World) (ops : List Op)
    (hempty : w.vxc.vl3NsePeers = []) :
    ∀ n p, (run env w ops).peer n = some p →
      (p.state = PeerStateConn → p.connErr = none) ∧
      (p.state = PeerStateConnErr → p.connErr ≠ none) := by
  exact AllPeers_run
    (fun p => (p.state = PeerStateConn → p.connErr = none) ∧
      (p.state = PeerStateConnErr → p.connErr ≠ none))
    (fun p hp => ⟨fun _ => hp.2, fun h => by rw [hp.1] at h; cases h⟩)
    (fun env w p h => drive_keeps_state_error_agreement env w p h)
    (fun _ _ _ => ⟨fun h => (by cases h), fun h => (by cases h)⟩)
    env ops w (AllPeers_of_empty _ w hempty)

/-- C19 at a fresh endpoint after a mesh-formation run whose dataplane step
fails. -/
theorem state_and_stored_error_agree_witness :
    freshEndpoint.vxc.vl3NsePeers = [] ∧
    ∀ n p, (run applyFailing freshEndpoint [Op.processNsEndpoints discoveredABSelf ""]).peer n
        = some p →
      (p.state = PeerStateConn → p.connErr = none) ∧
      (p.state = PeerStateConnErr → p.connErr ≠ none) :=
  ⟨rfl, state_and_stored_error_agree applyFailing freshEndpoint _ rfl⟩

theorem drive_leaves_at_rest (env : Collaborators) (w : World) (p : vL3NsePeer)
    (h : IsFresh p ∨
      (p.state = PeerStateConn ∨ p.state = PeerStateConnErr ∨ p.state = PeerStateConnRx)) :
    (ConnectPeerEndpoint env w p).2.1.state = PeerStateConn ∨
    (ConnectPeerEndpoint env w p).2.1.state = PeerStateConnErr ∨
    (ConnectPeerEndpoint env w p).2.1.state = PeerStateConnRx := by
  rcases ConnectPeerEndpoint_state env w p with hc | hc
  · rw [hc.2]
    rcases h with hfr | hp
    · exact absurd hfr.1 hc.1
    · exact hp
  · rcases hc.2 with h1 | h1
    · exact Or.inl h1
    · exact Or.inr (Or.inl h1)

/-- C20: no record rests in an unfinished state. Starting from an empty
registry, after any sequence of complete entry points (inbound peer requests,
mesh-formation runs, requests through `Request`), run one after another with
any collaborator answers, every record is Connected, in ConnectionError or
ConnectedViaIncoming, so none is NotConnected or in ConnectionInProgress, and
every record carries the name it is stored under. -/
theorem no_record_rests_unfinished (env : Collaborators) (w : World) (ops : List Op)
    (hempty : w.vxc.vl3NsePeers = []) (htop : ∀ op ∈ ops, op.isTopLevel = true) :
    ∀ n p, (run env w ops).peer n = some p →
      (p.state = PeerStateConn ∨ p.state = PeerStateConnErr ∨ p.state = PeerStateConnRx) ∧
      p.state ≠ PeerStateNotConn ∧ p.state ≠ PeerStateConnInProg ∧
      p.endpointName = n := by
  intro n p hp
  have hst := AllPeers_run_topLevel
    (fun p => p.state = PeerStateConn ∨ p.state = PeerStateConnErr ∨ p.state = PeerStateConnRx)
    (fun env w p h => drive_leaves_at_rest env w p h)
    (fun _ _ _ => Or.inr (Or.inr rfl))
    env ops w htop (AllPeers_of_empty _ w hempty) n p hp
  have hw : WellFormed w := ⟨by simp [hempty, mapKeys], by simp [hempty]⟩
  refine ⟨hst, ?_, ?_, WellFormed_peer _ n p (WellFormed_run env ops w hw) hp⟩
  · rcases hst with h | h | h <;> rw [h] <;> decide
  · rcases hst with h | h | h <;> rw [h] <;> decide

/-- C20 at a fresh endpoint: a mesh-formation run, then an inbound request. -/
theorem no_record_rests_unfinished_witness :
    freshEndpoint.vxc.vl3NsePeers = [] ∧
    (∀ op ∈ [Op.processNsEndpoints discoveredABSelf "", Op.processPeerRequest "X" peerRequestFromX],
      op.isTopLevel = true) ∧
    ∀ n p, (run succeeding freshEndpoint
        [Op.processNsEndpoints discoveredABSelf "", Op.processPeerRequest "X" peerRequestFromX]).peer
        n = some p →
      (p.state = PeerStateConn ∨ p.state = PeerStateConnErr ∨ p.state = PeerStateConnRx) ∧
      p.state ≠ PeerStateNotConn ∧ p.state ≠ PeerStateConnInProg ∧
      p.endpointName = n :=
  ⟨rfl, by decide,
   no_record_rests_unfinished succeeding freshEndpoint _ rfl (by decide)⟩

/-! ## Excluded prefixes only grow -/

theorem Grows_refl (P : List String) : Grows P P :=
  ⟨fun _ h => h, fun h => ⟨List.prefix_refl P, h⟩⟩

theorem Grows_trans (A B C : List String) (h1 : Grows A B) (h2 : Grows B C) : Grows A C :=
  ⟨fun s hs => h2.1 s (h1.1 s hs),
   fun hn => ⟨List.IsPrefix.trans (h1.2 hn).1 (h2.2 (h1.2 hn).2).1, (h2.2 (h1.2 hn).2).2⟩⟩

theorem Grows_merge (P L : List String) : Grows P (removeDuplicates (P ++ L)) := by
  rw [removeDuplicates_eq_firstOccurrences]
  refine ⟨fun s hs => (mem_firstOccurrences _ s).2 (List.mem_append_left _ hs), ?_⟩
  intro hn
  refine ⟨?_, nodup_firstOccurrences _⟩
  rw [firstOccurrences_append, firstOccurrences_of_nodup P hn]
  exact List.prefix_append _ _

theorem PrefixesKept_refl (w : World) : PrefixesKept w w :=
  fun _ p hp => ⟨p, hp, Grows_refl _⟩

theorem PrefixesKept_trans (a b c : World) (h1 : PrefixesKept a b) (h2 : PrefixesKept b c) :
    PrefixesKept a c := by
  intro n p hp
  obtain ⟨p1, hp1, g1⟩ := h1 n p hp
  obtain ⟨p2, hp2, g2⟩ := h2 n p1 hp1
  exact ⟨p2, hp2, Grows_trans _ _ _ g1 g2⟩

theorem PrefixesKept_of_peers_eq (w w2 : World) (h : w2.vxc.vl3NsePeers = w.vxc.vl3NsePeers) :
    PrefixesKept w w2 :=
  fun _ p hp => ⟨p, by simpa [World.peer, h] using hp, Grows_refl _⟩

theorem PrefixesKept_addPeer (w : World) (n m s : String) :
    PrefixesKept w (addPeer w n m s).2 := by
  intro k p hp
  refine ⟨p, ?_, Grows_refl _⟩
  by_cases hk : k = n
  · subst hk
    rw [addPeer_of_some w k m s p hp]
    simpa using hp
  · rw [addPeer_peer_of_ne w n m s k hk]; exact hp

theorem PrefixesKept_driveLocked (env : Collaborators) (w : World) (n : String)
    (q : vL3NsePeer) (hq : w.peer n = some q) : PrefixesKept w (driveLocked env w n q) := by
  intro k p hp
  by_cases hk : k = n
  · subst hk
    rw [hq] at hp
    cases hp
    refine ⟨_, driveLocked_peer_self env w k q, ?_⟩
    rw [ConnectPeerEndpoint_excludedPrefixes]
    exact Grows_refl _
  · exact ⟨p, by rw [driveLocked_peer_of_ne _ _ _ _ _ hk]; exact hp, Grows_refl _⟩

theorem PrefixesKept_processPeerRequest (env : Collaborators) (w : World) (n : String)
    (request : NetworkServiceRequest) : PrefixesKept w (processPeerRequest env w n request).2.2 := by
  intro k p hp
  by_cases hk : k = n
  · subst hk
    refine ⟨_, processPeerRequest_peer_self env w k request, ?_⟩
    rw [addPeer_of_some w k _ _ p hp]
    exact Grows_merge _ _
  · exact ⟨p, by rw [processPeerRequest_peer_of_ne env w n k request hk]; exact hp, Grows_refl _⟩

theorem PrefixesKept_processNsEndpoint (env : Collaborators) (remoteIp : String)
    (ep : NetworkServiceEndpoint) (w : World) :
    PrefixesKept w (processNsEndpoint env remoteIp ep w) := by
  have h0 : PrefixesKept w ((w.emit Event.lockRegistry).emit Event.unlockRegistry) :=
    PrefixesKept_of_peers_eq w _ rfl
  by_cases hme : ep.Name = w.vxc.myEndpointName
  · rw [processNsEndpoint_of_self env remoteIp ep w hme]; exact h0
  · rw [processNsEndpoint_of_ne env remoteIp ep w hme]
    exact PrefixesKept_trans _ _ _ h0
      (PrefixesKept_trans _ _ _ (PrefixesKept_addPeer _ _ _ _)
        (PrefixesKept_driveLocked env _ _ _ (addPeer_peer_self _ _ _ _)))

theorem PrefixesKept_processNsEndpointsLoop (env : Collaborators) (remoteIp : String)
    (eps : List NetworkServiceEndpoint) :
    ∀ w : World, PrefixesKept w (processNsEndpointsLoop env remoteIp eps w) := by
  induction eps with
  | nil => intro w; exact PrefixesKept_refl w
  | cons ep t ih =>
    intro w
    simp only [processNsEndpointsLoop]
    exact PrefixesKept_trans _ _ _ (PrefixesKept_processNsEndpoint env remoteIp ep w) (ih _)

theorem PrefixesKept_step (env : Collaborators) (w : World) (op : Op) :
    PrefixesKept w (step env w op) := by
  cases op with
  | addPeer n m s => exact PrefixesKept_addPeer w n m s
  | SetMyNseName request => exact PrefixesKept_of_peers_eq w _ (SetMyNseName_peers env w request)
  | GetMyNseName => exact PrefixesKept_of_peers_eq w _ rfl
  | processPeerRequest n request => exact PrefixesKept_processPeerRequest env w n request
  | drive n =>
    simp only [step, drivePeer]
    cases h : mapGet w.vxc.vl3NsePeers n with
    | none => exact PrefixesKept_refl w
    | some q => exact PrefixesKept_driveLocked env w n q h
  | processNsEndpoints response remoteIp =>
    exact PrefixesKept_processNsEndpointsLoop env remoteIp _ w
  | Request request =>
    simp only [step, Request]
    cases mapGet request.Connection.Labels LabelNseSource with
    | some src =>
      have hb := PrefixesKept_processPeerRequest env w src request
      cases env.next with
      | none => exact hb
      | some f => exact PrefixesKept_trans _ _ _ hb (PrefixesKept_of_peers_eq _ _ rfl)
    | none =>
      have hb := PrefixesKept_of_peers_eq w _ (Quiet_clientRequest env w request).1
      cases env.next with
      | none => exact hb
      | some f => exact PrefixesKept_trans _ _ _ hb (PrefixesKept_of_peers_eq _ _ rfl)

theorem PrefixesKept_run (env : Collaborators) (ops : List Op) :
    ∀ w : World, PrefixesKept w (run env w ops) := by
  induction ops with
  | nil => intro w; exact PrefixesKept_refl w
  | cons op t ih =>
    intro w
    have e : run env w (op :: t) = run env (step env w op) t := rfl
    rw [e]
    exact PrefixesKept_trans _ _ _ (PrefixesKept_step env w op) (ih _)

/-- C17: a record's excluded-prefix list never shrinks. For every operation
(`addPeer`, an inbound peer request with any prefix list, `drive()`, mesh
formation, and the others) and every record that exists before it, the record
still exists afterwards, every prefix it had is still in its list, and if the
list had no duplicates it is an initial segment of the list afterwards; the
same holds across any sequence of operations. -/
theorem excluded_prefixes_never_shrink (env : Collaborators) (w : World) (n : String)
    (p : vL3NsePeer) (hp : w.peer n = some p) :
    (∀ op : Op, ∃ p2, (step env w op).peer n = some p2 ∧
      (∀ s ∈ p.excludedPrefixes, s ∈ p2.excludedPrefixes) ∧
      (p.excludedPrefixes.Nodup → p.excludedPrefixes <+: p2.excludedPrefixes)) ∧
    (∀ ops : List Op, ∃ p2, (run env w ops).peer n = some p2 ∧
      (∀ s ∈ p.excludedPrefixes, s ∈ p2.excludedPrefixes) ∧
      (p.excludedPrefixes.Nodup → p.excludedPrefixes <+: p2.excludedPrefixes)) := by
  constructor
  · intro op
    obtain ⟨p2, h2, g⟩ := PrefixesKept_step env w op n p hp
    exact ⟨p2, h2, g.1, fun hn => (g.2 hn).1⟩
  · intro ops
    obtain ⟨p2, h2, g⟩ := PrefixesKept_run env ops w n p hp
    exact ⟨p2, h2, g.1, fun hn => (g.2 hn).1⟩

/-- C17 at the record of `X` after one inbound request: a second request with
other prefixes keeps `10.0.0.0/8` first. -/
theorem excluded_prefixes_never_shrink_witness :
    afterRequestFromX.peer "X" = some recordOfX ∧
    ∃ p2, (step succeeding afterRequestFromX
        (Op.processPeerRequest "X" secondRequestFromX)).peer "X" = some p2 ∧
      (∀ s ∈ recordOfX.excludedPrefixes, s ∈ p2.excludedPrefixes) ∧
      (recordOfX.excludedPrefixes.Nodup →
        recordOfX.excludedPrefixes <+: p2.excludedPrefixes) :=
  ⟨by decide,
   (excluded_prefixes_never_shrink succeeding afterRequestFromX "X" recordOfX (by decide)).1 _⟩

/-- The scenario of C17 evaluated: the second request from `X` leaves the
list `10.0.0.0/8`, `172.16.0.0/12`. -/
theorem second_request_from_X_appends :
    ((step succeeding afterRequestFromX
        (Op.processPeerRequest "X" secondRequestFromX)).peer "X").map
      (fun p => p.excludedPrefixes) = some ["10.0.0.0/8", "172.16.0.0/12"] := by
  decide

/-! ## Lock order -/

theorem heldAfter_append (h : Held) (a b : List Event) :
    heldAfter h (a ++ b) = heldAfter (heldAfter h a) b := by
  simp [heldAfter, List.foldl_append]

theorem peerLocksTakenFree_append (a b : List Event) :
    ∀ h : Held, peerLocksTakenFree h (a ++ b) =
      (peerLocksTakenFree h a && peerLocksTakenFree (heldAfter h a) b) := by
  induction a with
  | nil => intro h; simp [peerLocksTakenFree, heldAfter]
  | cons e t ih =>
    intro h
    cases e <;> simp [peerLocksTakenFree, heldAfter, ih, Bool.and_assoc]

theorem LockSafe_refl (w : World) : LockSafe w w :=
  ⟨[], by simp, rfl, rfl⟩

theorem LockSafe_trans (a b c : World) (h1 : LockSafe a b) (h2 : LockSafe b c) :
    LockSafe a c := by
  obtain ⟨e1, t1, p1, f1⟩ := h1
  obtain ⟨e2, t2, p2, f2⟩ := h2
  refine ⟨e1 ++ e2, by rw [t2, t1, List.append_assoc], ?_, ?_⟩
  · rw [peerLocksTakenFree_append, p1, f1, p2]; rfl
  · rw [heldAfter_append, f1, f2]

theorem LockSafe_of_events (w w2 : World) (evs : List Event) (ht : w2.trace = w.trace ++ evs)
    (hp : peerLocksTakenFree Held.none evs = true) (hf : heldAfter Held.none evs = Held.none) :
    LockSafe w w2 := ⟨evs, ht, hp, hf⟩

theorem LockSafe_registry (w : World) :
    LockSafe w ((w.emit Event.lockRegistry).emit Event.unlockRegistry) :=
  LockSafe_of_events w _ [Event.lockRegistry, Event.unlockRegistry] (by simp) rfl rfl

theorem LockSafe_addPeer (w : World) (n m s : String) : LockSafe w (addPeer w n m s).2 :=
  LockSafe_of_events w _ [Event.lockRegistry, Event.unlockRegistry] (addPeer_trace w n m s)
    rfl rfl

theorem LockSafe_SetMyNseName (env : Collaborators) (w : World)
    (request : NetworkServiceRequest) : LockSafe w (SetMyNseName env w request) :=
  LockSafe_of_events w _ [Event.lockRegistry, Event.unlockRegistry]
    (SetMyNseName_trace env w request) rfl rfl

theorem LockSafe_processPeerRequest (env : Collaborators) (w : World) (n : String)
    (request : NetworkServiceRequest) : LockSafe w (processPeerRequest env w n request).2.2 :=
  LockSafe_of_events w _
    [Event.lockRegistry, Event.unlockRegistry, Event.lockPeer n, Event.unlockPeer n]
    (processPeerRequest_trace env w n request)
    (by simp [peerLocksTakenFree, Held.after, Held.none])
    (by simp [heldAfter, Held.after, Held.none])

/-- The events of one `drive()`: none, or the registry lock taken and released
to read Self Identity, then the connect request, then perhaps the dataplane
request. -/
theorem ConnectPeerEndpoint_events (env : Collaborators) (w : World) (p : vL3NsePeer) :
    ∃ evs, (ConnectPeerEndpoint env w p).2.2.trace = w.trace ++ evs ∧
      (p.state ≠ PeerStateNotConn → evs = []) ∧
      (p.state = PeerStateNotConn → ∃ rest,
        evs = Event.lockRegistry :: Event.unlockRegistry ::
          Event.connectToEndpoint (connectArgsOf p [w.vxc.ipamCidr]) :: rest ∧
        (rest = [] ∨ ∃ req, rest = [Event.processClientDP req])) := by
  rcases ConnectPeerEndpoint_cases env w p with h | h | h | h
  · exact ⟨[], by rw [h.2]; simp, fun _ => rfl, fun hs => absurd hs h.1⟩
  · refine ⟨[Event.lockRegistry, Event.unlockRegistry,
      Event.connectToEndpoint (connectArgsOf p [w.vxc.ipamCidr])], by rw [h.2.2]; simp,
      fun hs => absurd h.1 hs, fun _ => ⟨[], rfl, Or.inl rfl⟩⟩
  · refine ⟨[Event.lockRegistry, Event.unlockRegistry,
      Event.connectToEndpoint (connectArgsOf p [w.vxc.ipamCidr]),
      Event.processClientDP (applyRequestOf p (connectOutcome env w p).1)],
      by rw [h.2.2.2]; simp, fun hs => absurd h.1 hs, fun _ => ⟨_, rfl, Or.inr ⟨_, rfl⟩⟩⟩
  · refine ⟨[Event.lockRegistry, Event.unlockRegistry,
      Event.connectToEndpoint (connectArgsOf p [w.vxc.ipamCidr]),
      Event.processClientDP (applyRequestOf p (connectOutcome env w p).1)],
      by rw [h.2.2.2]; simp, fun hs => absurd h.1 hs, fun _ => ⟨_, rfl, Or.inr ⟨_, rfl⟩⟩⟩

/-- The events of a locked `drive()`: the peer lock, the events of the drive,
the peer unlock. -/
theorem driveLocked_events (env : Collaborators) (w : World) (n : String) (p : vL3NsePeer) :
    ∃ evs, (driveLocked env w n p).trace =
        w.trace ++ (Event.lockPeer n :: evs ++ [Event.unlockPeer n]) ∧
      (p.state ≠ PeerStateNotConn → evs = []) ∧
      (p.state = PeerStateNotConn → ∃ rest,
        evs = Event.lockRegistry :: Event.unlockRegistry ::
          Event.connectToEndpoint (connectArgsOf p [w.vxc.ipamCidr]) :: rest ∧
        (rest = [] ∨ ∃ req, rest = [Event.processClientDP req])) := by
  obtain ⟨evs, ht, h1, h2⟩ := ConnectPeerEndpoint_events env (w.emit (Event.lockPeer n)) p
  refine ⟨evs, ?_, h1, ?_⟩
  · simp [driveLocked, ht]
  · intro hs
    simpa using h2 hs

theorem LockSafe_driveLocked (env : Collaborators) (w : World) (n : String) (p : vL3NsePeer) :
    LockSafe w (driveLocked env w n p) := by
  obtain ⟨evs, ht, h1, h2⟩ := driveLocked_events env w n p
  refine LockSafe_of_events w _ _ ht ?_ ?_
  · by_cases hs : p.state = PeerStateNotConn
    · obtain ⟨rest, he, hr⟩ := h2 hs
      rcases hr with hr | ⟨req, hr⟩ <;> subst hr <;> subst he <;>
        simp [peerLocksTakenFree, Held.after, Held.none]
    · rw [h1 hs]
      simp [peerLocksTakenFree, Held.after, Held.none]
  · by_cases hs : p.state = PeerStateNotConn
    · obtain ⟨rest, he, hr⟩ := h2 hs
      rcases hr with hr | ⟨req, hr⟩ <;> subst hr <;> subst he <;>
        simp [heldAfter, Held.after, Held.none]
    · rw [h1 hs]
      simp [heldAfter, Held.after, Held.none]

theorem LockSafe_processNsEndpoint (env : Collaborators) (remoteIp : String)
    (ep : NetworkServiceEndpoint) (w : World) :
    LockSafe w (processNsEndpoint env remoteIp ep w) := by
  by_cases hme : ep.Name = w.vxc.myEndpointName
  · rw [processNsEndpoint_of_self env remoteIp ep w hme]
    exact LockSafe_registry w
  · rw [processNsEndpoint_of_ne env remoteIp ep w hme]
    exact LockSafe_trans _ _ _ (LockSafe_registry w)
      (LockSafe_trans _ _ _ (LockSafe_addPeer _ _ _ _) (LockSafe_driveLocked env _ _ _))

theorem LockSafe_processNsEndpointsLoop (env : Collaborators) (remoteIp : String)
    (eps : List NetworkServiceEndpoint) :
    ∀ w : World, LockSafe w (processNsEndpointsLoop env remoteIp eps w) := by
  induction eps with
  | nil => intro w; exact LockSafe_refl w
  | cons ep t ih =>
    intro w
    simp only [processNsEndpointsLoop]
    exact LockSafe_trans _ _ _ (LockSafe_processNsEndpoint env remoteIp ep w) (ih _)

theorem LockSafe_discover (env : Collaborators) (w : World) (name site : String) :
    LockSafe w (discover env w name site) := by
  refine LockSafe_of_events w _ _ (discover_trace env w name site) ?_ ?_
  · unfold scopeEvents
    split <;> simp [peerLocksTakenFree, Held.after]
  · unfold scopeEvents
    split <;> simp [heldAfter, Held.after]

theorem LockSafe_discoverRemotes (env : Collaborators) (sites : List String) :
    ∀ (reqName : String) (w : World), LockSafe w (discoverRemotes env sites reqName w) := by
  induction sites with
  | nil => intro _ w; exact LockSafe_refl w
  | cons r t ih =>
    intro reqName w
    simp only [discoverRemotes]
    exact LockSafe_trans _ _ _ (LockSafe_discover env w _ r) (ih _ _)

theorem LockSafe_discoveries (env : Collaborators) (w w1 : World) (hq : LockSafe w w1)
    (reqName : String) :
    LockSafe w
      (discoverRemotes env (discover env w1 reqName "").vxc.remoteNsIpList reqName
        { discover env w1 reqName "" with
          vxc := { (discover env w1 reqName "").vxc with outgoingNscName := reqName } }) := by
  have h1 : LockSafe w (discover env w1 reqName "") :=
    LockSafe_trans _ _ _ hq (LockSafe_discover env w1 reqName "")
  have h2 : LockSafe (discover env w1 reqName "")
      { discover env w1 reqName "" with
        vxc := { (discover env w1 reqName "").vxc with outgoingNscName := reqName } } :=
    LockSafe_of_events _ _ [] (by simp) rfl rfl
  exact LockSafe_trans _ _ _ (LockSafe_trans _ _ _ h1 h2) (LockSafe_discoverRemotes env _ _ _)

theorem LockSafe_clientRequest (env : Collaborators) (w : World)
    (request : NetworkServiceRequest) : LockSafe w (clientRequest env w request).2 := by
  unfold clientRequest
  dsimp only
  split
  · exact LockSafe_SetMyNseName env w _
  · exact LockSafe_discoveries env w _ (LockSafe_SetMyNseName env w _) _

theorem LockSafe_Request (env : Collaborators) (w : World) (request : NetworkServiceRequest) :
    LockSafe w (Request env w request).2.2 := by
  have hnext : ∀ (w2 : World) (r : NetworkServiceRequest), LockSafe w w2 →
      LockSafe w (w2.emit (Event.nextRequest r)) := by
    intro w2 r h
    exact LockSafe_trans _ _ _ h (LockSafe_of_events w2 _ [Event.nextRequest r] rfl rfl rfl)
  unfold Request
  cases mapGet request.Connection.Labels LabelNseSource with
  | some src =>
    have hb := LockSafe_processPeerRequest env w src request
    cases env.next with
    | none => exact hb
    | some f => exact hnext _ _ hb
  | none =>
    have hb := LockSafe_clientRequest env w request
    cases env.next with
    | none => exact hb
    | some f => exact hnext _ _ hb

theorem LockSafe_step (env : Collaborators) (w : World) (op : Op) :
    LockSafe w (step env w op) := by
  cases op with
  | addPeer n m s => exact LockSafe_addPeer w n m s
  | SetMyNseName request => exact LockSafe_SetMyNseName env w request
  | GetMyNseName => exact LockSafe_registry w
  | processPeerRequest n request => exact LockSafe_processPeerRequest env w n request
  | drive n =>
    simp only [step, drivePeer]
    cases mapGet w.vxc.vl3NsePeers n with
    | none => exact LockSafe_refl w
    | some q => exact LockSafe_driveLocked env w n q
  | processNsEndpoints response remoteIp =>
    exact LockSafe_processNsEndpointsLoop env remoteIp _ w
  | Request request => exact LockSafe_Request env w request

theorem LockSafe_run (env : Collaborators) (ops : List Op) :
    ∀ w : World, LockSafe w (run env w ops) := by
  induction ops with
  | nil => intro w; exact LockSafe_refl w
  | cons op t ih =>
    intro w
    have e : run env w (op :: t) = run env (step env w op) t := rfl
    rw [e]
    exact LockSafe_trans _ _ _ (LockSafe_step env w op) (ih _)

/-- C18, as the code has it: the lock order is peer-then-registry. In every
execution of mesh formation, of the inbound dispatcher and of any other
sequence of operations, starting with no lock held, a peer record's lock is
only acquired while no lock is held, so never while the registry lock is
held, and no lock is held at the end. The registry lock is acquired while a
peer's lock is held: the connect step of `drive()` from NotConnected takes and
releases it, to read Self Identity, right after the peer's lock was taken and
before the connect request. -/
theorem lock_order_is_peer_then_registry (env : Collaborators) (w : World) (ops : List Op)
    (hfree : peerLocksTakenFree Held.none w.trace = true)
    (hnone : heldAfter Held.none w.trace = Held.none) :
    peerLocksTakenFree Held.none (run env w ops).trace = true ∧
    heldAfter Held.none (run env w ops).trace = Held.none ∧
    (∀ (w0 : World) (n : String) (p : vL3NsePeer), p.state = PeerStateNotConn →
      ∃ rest, (driveLocked env w0 n p).trace =
        w0.trace ++
          (Event.lockPeer n :: Event.lockRegistry :: Event.unlockRegistry ::
            Event.connectToEndpoint (connectArgsOf p [w0.vxc.ipamCidr]) :: rest)) := by
  obtain ⟨evs, ht, hp, hf⟩ := LockSafe_run env ops w
  refine ⟨?_, ?_, ?_⟩
  · rw [ht, peerLocksTakenFree_append, hfree, hnone, hp]; rfl
  · rw [ht, heldAfter_append, hnone, hf]
  · intro w0 n p hs
    obtain ⟨devs, hdt, _, h2⟩ := driveLocked_events env w0 n p
    obtain ⟨rest, he, _⟩ := h2 hs
    exact ⟨rest ++ [Event.unlockPeer n], by rw [hdt, he]; simp⟩

/-- C18 as amended, at a fresh endpoint and a mesh-formation run. -/
theorem lock_order_is_peer_then_registry_witness :
    peerLocksTakenFree Held.none freshEndpoint.trace = true ∧
    heldAfter Held.none freshEndpoint.trace = Held.none ∧
    peerLocksTakenFree Held.none
      (run succeeding freshEndpoint [Op.processNsEndpoints discoveredX ""]).trace = true :=
  ⟨rfl, rfl,
   (lock_order_is_peer_then_registry succeeding freshEndpoint
      [Op.processNsEndpoints discoveredX ""] rfl rfl).1⟩

/-- C18 as stated fails: in the mesh-formation run from a fresh endpoint over
the discovery result `X`, the registry lock is acquired while the lock of `X`
is held. The first seven events of the run are the registry lock and unlock
of `GetMyNseName`, those of `addPeer`, the lock of `X`, and the registry lock
and unlock of the connect step. -/
theorem registry_lock_taken_under_peer_lock :
    registryNeverUnderPeer Held.none
      (processNsEndpoints succeeding freshEndpoint discoveredX "").2.trace = false ∧
    (processNsEndpoints succeeding freshEndpoint discoveredX "").2.trace.take 7 =
      [Event.lockRegistry, Event.unlockRegistry, Event.lockRegistry, Event.unlockRegistry,
       Event.lockPeer "X", Event.lockRegistry, Event.unlockRegistry] ∧
    registryNeverUnderPeer Held.none
      (processPeerRequest succeeding freshEndpoint "X" peerRequestFromX).2.2.trace = true := by
  decide

end VL3
